import Mathlib

/-!
Verification of the seat-reservation core of the BOOK-YOU-SHOW server.

The definitions below are a shallow embedding of the TypeScript services:
  - seats.service.ts            (seat store: atomic lock / confirm / release / broken)
  - bookings.service.ts         (reservation manager: create / updateTickets / confirm / cancel, pricing)
  - seat-lock-expiry.service    (background expiry sweeper)
  - payments.service.ts         (gateway intent, callback and redirect reconciliation)
  - schemas                     (Seat, SeatLock, SeatLockBackup, Booking, Event)

Modelling conventions:
  - MongoDB collections are lists of records; an updateMany is a map over the
    list guarded by the filter; an updateOne on `_id` is the same map because
    `_id` is unique (theorems add the Nodup hypothesis where it matters).
  - JavaScript numbers holding money are modelled as rationals, Date values as
    integers (milliseconds); `new Date() > d` becomes `d < now`.
  - JavaScript truthiness on optional strings ("" is falsy) is modelled by
    `optTruthy`; truthiness on optional positive prices by `priceTruthy`.
  - Network and Firestore side effects do not touch the MongoDB state; the only
    thing that matters to the claims is whether they fail, which is modelled by
    boolean flags in `Env`.
-/

namespace BookYourShow

/-- Seat states, from seat.schema.ts `SeatState`. -/
inductive SeatState where
  | available
  | payment_pending
  | booked
  | broken
  | aisle
  | blocked
deriving DecidableEq

/-- A seat document, from seat.schema.ts (fields the core reads). -/
structure Seat where
  sid : String
  eventId : String
  state : SeatState
  pendingReservationId : Option String
  ticketType : Option String
  basePrice : Option ℚ
deriving DecidableEq

/-- Reservation status strings, from seat-lock.schema.ts `ReservationStatus`. -/
inductive ReservationStatus where
  | pending_payment
  | completed
  | cancelled
deriving DecidableEq

/-- Price summary, from seat-lock.schema.ts `AmountSummary`. -/
structure AmountSummary where
  subtotal : ℚ
  commission : ℚ
  taxes : ℚ
  total : ℚ
deriving DecidableEq

/-- A reservation (seat lock) document, from seat-lock.schema.ts `SeatLock`.
`numericState` keeps the raw integer codes of the source:
-1 cart, -2 at gateway, -3 timed out, 1 paid. -/
structure Reservation where
  rid : String
  eventId : String
  seatIds : List String
  status : ReservationStatus
  numericState : Int
  expiresAt : Int
  amountSummary : Option AmountSummary
  paymentIntentId : Option String
  phoneNumber : Option String
deriving DecidableEq

/-- Booking payment states, from booking.schema.ts `PaymentState`. -/
inductive PaymentState where
  | pend
  | processing
  | success
  | failed
deriving DecidableEq

/-- A booking document, from booking.schema.ts (fields the core writes).
`bid` stands for the generated Mongo `_id`, issued from a counter here. -/
structure Booking where
  bid : Nat
  reservationId : String
  seatId : String
  pricePaid : ℚ
  commissionAmount : ℚ
  paymentState : PaymentState
deriving DecidableEq

/-- A backup copy of a reservation, from the `SeatLockBackup` schema
(fields used by callback reconciliation). -/
structure BackupRec where
  rid : String
  paymentIntentId : Option String
deriving DecidableEq

/-- A ticket-type tier of an event, from event.schema.ts `TicketType`
(both prices are required in the schema). -/
structure TicketType where
  name : String
  adultPrice : ℚ
  childPrice : ℚ
deriving DecidableEq

/-- Commission configuration, from event.schema.ts `Commission`. -/
inductive CommissionType where
  | percentage
  | flat
deriving DecidableEq

structure Commission where
  ctype : CommissionType
  value : ℚ
deriving DecidableEq

/-- An event document, from event.schema.ts (fields the pricing and
reservation-creation code reads). -/
structure Event where
  eid : String
  defaultPrice : ℚ
  ticketTypes : List TicketType
  commission : Option Commission
  isTicketSaleEnabled : Bool
  ticketSaleStartDate : Option Int
  ticketSaleEndDate : Option Int
deriving DecidableEq

/-- Success flags for the out-of-process collaborators (Firestore, the
message write, the gateway). Only whether they fail is visible to the
MongoDB state, so they are booleans of the environment. -/
structure Env where
  firebaseOk : Bool
  messageOk : Bool
deriving DecidableEq

/-- The durable state shared by all services: the four Mongo collections
plus the booking id counter. -/
structure SysState where
  reservations : List Reservation
  seats : List Seat
  bookings : List Booking
  backups : List BackupRec
  events : List Event
  nextBookingId : Nat
  env : Env
deriving DecidableEq

/-- JavaScript truthiness of an optional string: undefined and "" are falsy. -/
def optTruthy : Option String → Bool
  | some s => s ≠ ""
  | none => false

/-- JavaScript truthiness of `seat.basePrice` combined with the
`basePrice > 0` guard of the pricing code: present and positive. -/
def priceTruthy : Option ℚ → Bool
  | some p => 0 < p
  | none => false

/-- findById on the seat collection. -/
def findSeat (seats : List Seat) (sid : String) : Option Seat :=
  seats.find? (fun s => s.sid = sid)

/-- findById on the reservation collection. -/
def findRes (rs : List Reservation) (rid : String) : Option Reservation :=
  rs.find? (fun r => r.rid = rid)

/-- document.save() on the reservation collection: replace the document
with the same `_id`. -/
def saveRes (rs : List Reservation) (r : Reservation) : List Reservation :=
  rs.map (fun x => if x.rid = r.rid then r else x)

/-! ## Seat store operations (seats.service.ts) -/

/-- The per-document effect of `atomicLockSeats`'s CAS on one seat. -/
def lockSeatF (sid rid : String) (s : Seat) : Seat :=
  if s.sid = sid ∧ s.state = SeatState.available then
    { s with state := SeatState.payment_pending, pendingReservationId := some rid }
  else s

/-- One compare-and-swap step of `atomicLockSeats`:
`updateOne({_id: seatId, state: AVAILABLE}, {$set: {state: PAYMENT_PENDING,
pendingReservationId}})`. Returns the matched count and the updated store. -/
def lockOne (seats : List Seat) (sid : String) (rid : String) : Nat × List Seat :=
  (seats.countP (fun s => s.sid = sid ∧ s.state = SeatState.available),
   seats.map (lockSeatF sid rid))

/-- The per-document effect of the rollback update. -/
def rollbackF (lockedIds : List String) (s : Seat) : Seat :=
  if s.sid ∈ lockedIds then
    { s with state := SeatState.available, pendingReservationId := none }
  else s

/-- The rollback of `atomicLockSeats`: `updateMany({_id: {$in: lockedIds}},
{$set: {state: AVAILABLE}, $unset: {pendingReservationId}})`. -/
def rollbackLocked (seats : List Seat) (lockedIds : List String) : List Seat :=
  seats.map (rollbackF lockedIds)

/-- The result record of `atomicLockSeats`. -/
structure LockResult where
  success : Bool
  failedSeatIds : List String
deriving DecidableEq

/-- The per-seat loop of `atomicLockSeats`: processes each requested id with
`lockOne`, accumulating locked and failed ids in request order. -/
def lockLoop (seats : List Seat) (rid : String) :
    List String → List Seat × List String × List String
  | [] => (seats, [], [])
  | sid :: rest =>
    let step := lockOne seats sid rid
    let tail := lockLoop step.2 rid rest
    if step.1 = 0 then
      (tail.1, tail.2.1, sid :: tail.2.2)
    else
      (tail.1, sid :: tail.2.1, tail.2.2)

/-- `atomicLockSeats(seatIds, reservationId)` from seats.service.ts: try to
CAS every seat from available to payment_pending; if any seat failed, roll
back all seats locked during the call and report failure with the failed
ids. Returns the result and the final seat store. -/
def atomicLockSeats (seats : List Seat) (seatIds : List String) (rid : String) :
    LockResult × List Seat :=
  let run := lockLoop seats rid seatIds
  let lockedIds := run.2.1
  let failedIds := run.2.2
  if failedIds ≠ [] then
    (⟨false, failedIds⟩, rollbackLocked run.1 lockedIds)
  else
    (⟨true, []⟩, run.1)

/-- `atomicConfirmSeats(seatIds, reservationId)`:
`updateMany({_id: {$in: seatIds}, state: PAYMENT_PENDING,
pendingReservationId: reservationId}, {$set: {state: BOOKED},
$unset: {pendingReservationId}})`; returns modifiedCount (every matched
document changes state, so modified = matched) and the store. -/
def atomicConfirmSeats (seats : List Seat) (seatIds : List String) (rid : String) :
    Nat × List Seat :=
  let p := fun (s : Seat) =>
    s.sid ∈ seatIds ∧ s.state = SeatState.payment_pending ∧
      s.pendingReservationId = some rid
  (seats.countP p,
   seats.map (fun s =>
     if p s then { s with state := SeatState.booked, pendingReservationId := none }
     else s))

/-- `setSeatsToPaymentPending(seatIds, reservationId)`:
`updateMany({_id: {$in: seatIds}, state: {$in: [AVAILABLE, PAYMENT_PENDING]}},
{$set: {state: PAYMENT_PENDING, pendingReservationId: reservationId}})`.
The filter does not look at the current pendingReservationId. modifiedCount
counts matched documents whose record actually changes. -/
def setSeatsToPaymentPending (seats : List Seat) (seatIds : List String) (rid : String) :
    Nat × List Seat :=
  let p := fun (s : Seat) =>
    s.sid ∈ seatIds ∧ (s.state = SeatState.available ∨ s.state = SeatState.payment_pending)
  (seats.countP (fun s =>
     p s ∧ ¬(s.state = SeatState.payment_pending ∧ s.pendingReservationId = some rid)),
   seats.map (fun s =>
     if p s then { s with state := SeatState.payment_pending, pendingReservationId := some rid }
     else s))

/-- The per-document effect of `releaseSeatsByReservation`'s updateMany. -/
def relSeatF (rid : String) (s : Seat) : Seat :=
  if s.pendingReservationId = some rid ∧ s.state = SeatState.payment_pending then
    { s with state := SeatState.available, pendingReservationId := none }
  else s

/-- `releaseSeatsByReservation(reservationId)`:
`updateMany({pendingReservationId: reservationId, state: PAYMENT_PENDING},
{$set: {state: AVAILABLE}, $unset: {pendingReservationId}})`. -/
def releaseSeatsByReservation (seats : List Seat) (rid : String) : Nat × List Seat :=
  (seats.countP (fun s =>
     s.pendingReservationId = some rid ∧ s.state = SeatState.payment_pending),
   seats.map (relSeatF rid))

/-- `setSeatBroken(seatId, broken)`: `findByIdAndUpdate(seatId,
{state: broken ? BROKEN : AVAILABLE})` — note that the update does not
touch pendingReservationId. Fails when the seat does not exist. -/
def setSeatBroken (seats : List Seat) (sid : String) (broken : Bool) :
    Option (List Seat) :=
  if (findSeat seats sid).isSome then
    some (seats.map (fun s =>
      if s.sid = sid then
        { s with state := if broken then SeatState.broken else SeatState.available }
      else s))
  else none

/-! ## Pricing (bookings.service.ts, calculateAmount and
calculateAmountWithSeatAssignments) -/

/-- The `ticketTypeMap` of the pricing code: `Map.set` is called once per
tier whose name is truthy (both prices are schema-required), so a lookup
returns the last tier with the given nonempty name. -/
def ttLookup (tts : List TicketType) (name : String) : Option TicketType :=
  ((tts.filter (fun tt => tt.name ≠ "")).reverse).find? (fun tt => tt.name = name)

/-- JavaScript `String.prototype.trim()`: strip leading and trailing
whitespace (defined here because Lean's own `String.trim` does not reduce
in the kernel). -/
def jsTrim (s : String) : String :=
  String.mk (((s.toList.dropWhile Char.isWhitespace).reverse.dropWhile
    Char.isWhitespace).reverse)

/-- The seat-side key: `seatObj.ticketType ? String(seatObj.ticketType).trim()
: null`, then used only when the trimmed string is itself truthy
(`if (seatTicketType && ...)`). -/
def seatEffectiveTicketType (s : Seat) : Option String :=
  match s.ticketType with
  | some raw => if jsTrim raw ≠ "" then some (jsTrim raw) else none
  | none => none

/-- The shared fallback of both pricing functions:
`basePrice && basePrice > 0` then basePrice, else `defaultPrice || 0`. -/
def fallbackPrice (defaultPrice : ℚ) (s : Seat) : ℚ :=
  match s.basePrice with
  | some p => if 0 < p then p else defaultPrice
  | none => defaultPrice

/-- Per-seat price of `calculateAmount` (always the adult tier price). -/
def calcSeatPriceAdult (tts : List TicketType) (defaultPrice : ℚ) (s : Seat) : ℚ :=
  match seatEffectiveTicketType s with
  | some t =>
    match ttLookup tts t with
    | some tier => tier.adultPrice
    | none => fallbackPrice defaultPrice s
  | none => fallbackPrice defaultPrice s

/-- The commission block shared by both pricing functions:
percentage of the subtotal, or the flat value once per seat; absent
commission config contributes nothing. -/
def commissionOf (event : Event) (subtotal : ℚ) (seatCount : Nat) : ℚ :=
  match event.commission with
  | some c =>
    match c.ctype with
    | CommissionType.percentage => subtotal * (c.value / 100)
    | CommissionType.flat => c.value * (seatCount : ℚ)
  | none => 0

/-- `calculateAmount(seats, event, adults, kids)` from bookings.service.ts. -/
def calculateAmount (seats : List Seat) (event : Event) (adults kids : Nat) :
    AmountSummary :=
  let seatPrices := seats.map (calcSeatPriceAdult event.ticketTypes event.defaultPrice)
  let baseSubtotal := seatPrices.sum
  let totalPersons := adults + kids
  let adjustedSubtotal :=
    if 0 < totalPersons ∧ totalPersons ≠ seats.length then
      let avg := baseSubtotal / (seats.length : ℚ)
      (adults : ℚ) * avg * 1 + (kids : ℚ) * avg * (1 / 2)
    else baseSubtotal
  let commission := commissionOf event adjustedSubtotal seats.length
  let taxes : ℚ := 0
  ⟨adjustedSubtotal, commission, taxes, adjustedSubtotal + commission + taxes⟩

/-- The per-seat adult/child choice sent by the client to `updateTickets`. -/
inductive AgeClass where
  | adult
  | child
deriving DecidableEq

structure SeatAssignment where
  seatId : String
  ticketType : AgeClass
deriving DecidableEq

/-- The `assignmentMap` lookup with its `|| 'adult'` default; `Map.set`
makes the last assignment for a seat win. -/
def assignedClass (assigns : List SeatAssignment) (sid : String) : AgeClass :=
  match assigns.reverse.find? (fun a => a.seatId = sid) with
  | some a => a.ticketType
  | none => AgeClass.adult

/-- Per-seat price of `calculateAmountWithSeatAssignments`. -/
def calcSeatPriceAssigned (tts : List TicketType) (defaultPrice : ℚ)
    (assigns : List SeatAssignment) (s : Seat) : ℚ :=
  let cls := assignedClass assigns s.sid
  match seatEffectiveTicketType s with
  | some t =>
    match ttLookup tts t with
    | some tier =>
      match cls with
      | AgeClass.adult => tier.adultPrice
      | AgeClass.child => tier.childPrice
    | none => fallbackPrice defaultPrice s
  | none => fallbackPrice defaultPrice s

/-- `calculateAmountWithSeatAssignments(seats, event, seatAssignments)`
from bookings.service.ts. -/
def calculateAmountWithSeatAssignments (seats : List Seat) (event : Event)
    (assigns : List SeatAssignment) : AmountSummary :=
  let subtotal :=
    (seats.map (calcSeatPriceAssigned event.ticketTypes event.defaultPrice assigns)).sum
  let commission := commissionOf event subtotal seats.length
  let taxes : ℚ := 0
  ⟨subtotal, commission, taxes, subtotal + commission + taxes⟩

/-! ## Reservation manager (bookings.service.ts) -/

inductive CreateError where
  | badInput
  | eventNotFound
  | salesDisabled
  | saleWindowClosed
  | seatsMissing
  | seatsUnavailable (failedSeatIds : List String)
  | duplicateId
deriving DecidableEq

/-- The sale-window test of `createReservation`. -/
def salePeriodActive (ev : Event) (now : Int) : Bool :=
  (match ev.ticketSaleStartDate with
   | some d => d ≤ now
   | none => true) &&
  (match ev.ticketSaleEndDate with
   | some d => now ≤ d
   | none => true)

/-- `createReservation(createBookingDto)` from bookings.service.ts: validate
the event and its sale window, check the seats belong to the event, lock
them atomically, compute the initial amount (adults = seat count, kids = 0)
and persist a new reservation in state CART (-1). The fresh uuid of the
source is the `newRid` parameter; the duplicate-key error Mongo would raise
on an id collision is the `duplicateId` branch. -/
def createReservation (st : SysState) (eventId : String) (seatIds : List String)
    (holdSeconds : Int) (newRid : String) (now : Int) :
    Except CreateError Unit × SysState :=
  if seatIds = [] then (Except.error CreateError.badInput, st)
  else
    match st.events.find? (fun e => e.eid = eventId) with
    | none => (Except.error CreateError.eventNotFound, st)
    | some ev =>
      if ¬ ev.isTicketSaleEnabled then (Except.error CreateError.salesDisabled, st)
      else if ¬ salePeriodActive ev now then (Except.error CreateError.saleWindowClosed, st)
      else
        let evSeats := st.seats.filter (fun s => s.eventId = eventId ∧ s.sid ∈ seatIds)
        if evSeats.length ≠ seatIds.length then (Except.error CreateError.seatsMissing, st)
        else
          let lock := atomicLockSeats st.seats seatIds newRid
          if ¬ lock.1.success then
            (Except.error (CreateError.seatsUnavailable lock.1.failedSeatIds),
             { st with seats := lock.2 })
          else if (findRes st.reservations newRid).isSome then
            (Except.error CreateError.duplicateId, { st with seats := lock.2 })
          else
            let amount := calculateAmount evSeats ev evSeats.length 0
            (Except.ok (),
             { st with
               seats := lock.2,
               reservations := st.reservations ++
                 [{ rid := newRid, eventId := eventId, seatIds := seatIds,
                    status := ReservationStatus.pending_payment, numericState := -1,
                    expiresAt := now + holdSeconds * 1000,
                    amountSummary := some amount, paymentIntentId := none,
                    phoneNumber := none }] })

inductive ConfirmError where
  | notFound
  | invalidState
  | expired
  | incompleteConfirm
  | phoneMissing
  | firebaseDown
  | eventMissing
  | messageFailed
deriving DecidableEq

/-- `updateTickets(reservationId, dto)`: recompute the amount summary
(per-seat when assignments are given) and save it on the reservation. -/
def updateTickets (st : SysState) (rid : String) (adults kids : Nat)
    (assigns : List SeatAssignment) : Except ConfirmError AmountSummary × SysState :=
  match findRes st.reservations rid with
  | none => (Except.error ConfirmError.notFound, st)
  | some r =>
    if r.status ≠ ReservationStatus.pending_payment then
      (Except.error ConfirmError.invalidState, st)
    else
      match st.events.find? (fun e => e.eid = r.eventId) with
      | none => (Except.error ConfirmError.eventMissing, st)
      | some ev =>
        let seats := st.seats.filter (fun s => s.eventId = r.eventId ∧ s.sid ∈ r.seatIds)
        let amount :=
          if assigns ≠ [] then calculateAmountWithSeatAssignments seats ev assigns
          else calculateAmount seats ev adults kids
        (Except.ok amount,
         { st with reservations :=
             saveRes st.reservations { r with amountSummary := some amount } })

/-- `cancelReservation(reservationId)`: release the seats held under the
reservation and set the status to CANCELLED (numericState untouched). -/
def cancelReservation (st : SysState) (rid : String) :
    Except ConfirmError Unit × SysState :=
  match findRes st.reservations rid with
  | none => (Except.error ConfirmError.notFound, st)
  | some r =>
    (Except.ok (),
     { st with
       seats := (releaseSeatsByReservation st.seats rid).2,
       reservations := saveRes st.reservations { r with status := ReservationStatus.cancelled } })

/-- One booking document as built in `confirmBooking`'s creation loop:
`pricePaid = seat.basePrice || amountSummary.total / seatIds.length`
(JS `||`: an absent or zero basePrice falls back to the average),
`commissionAmount = amountSummary.commission / seatIds.length`,
with `amountSummary` defaulting to zeros. -/
def mkBooking (r : Reservation) (s : Seat) (sid : String) (bid : Nat) : Booking :=
  let amount := r.amountSummary.getD ⟨0, 0, 0, 0⟩
  let n : ℚ := (r.seatIds.length : ℚ)
  { bid := bid
    reservationId := r.rid
    seatId := sid
    pricePaid :=
      match s.basePrice with
      | some p => if p ≠ 0 then p else amount.total / n
      | none => amount.total / n
    commissionAmount := amount.commission / n
    paymentState := PaymentState.pend }

/-- The booking-creation loop of `confirmBooking` (one booking per seat id,
ids issued sequentially from the counter; a missing seat makes
`seatsService.findOne` throw). The source awaits the writes concurrently;
they are modelled sequentially, which agrees with it whenever no lookup
fails — and the confirmed-count check makes a failing lookup unreachable. -/
def createBookings (seats : List Seat) (r : Reservation) :
    Nat → List String → Except ConfirmError (List Booking)
  | _, [] => Except.ok []
  | bid, sid :: rest =>
    match findSeat seats sid with
    | none => Except.error ConfirmError.notFound
    | some s =>
      match createBookings seats r (bid + 1) rest with
      | Except.error e => Except.error e
      | Except.ok bs => Except.ok (mkBooking r s sid bid :: bs)

structure ConfirmResult where
  reservationId : String
  bookings : List Nat
  confirmedSeats : List String
deriving DecidableEq

/-- The idempotent early return of `confirmBooking`: status COMPLETED with
existing bookings — return them, optionally filling in a missing
paymentIntentId, creating nothing. -/
def confirmIdempotent (st : SysState) (r : Reservation) (rid : String)
    (pid : Option String) (existing : List Booking) :
    Except ConfirmError ConfirmResult × SysState :=
  let r' :=
    if optTruthy pid ∧ ¬ optTruthy r.paymentIntentId then
      { r with paymentIntentId := pid }
    else r
  (Except.ok ⟨rid, existing.map (fun b => b.bid), r.seatIds⟩,
   { st with reservations := saveRes st.reservations r' })

/-- The Firestore/SMS gate at the end of `confirmBooking`, in source
order: a missing phone number, Firebase being unavailable, a missing
event, or the message write being refused each abort the call (after the
bookings were already written); SMS failures are swallowed. None of these
touches the modelled durable state. -/
def fireGate (st : SysState) (r : Reservation) : Option ConfirmError :=
  if ¬ optTruthy r.phoneNumber then some ConfirmError.phoneMissing
  else if ¬ st.env.firebaseOk then some ConfirmError.firebaseDown
  else if (st.events.find? (fun e => e.eid = r.eventId)).isNone then
    some ConfirmError.eventMissing
  else if ¬ st.env.messageOk then some ConfirmError.messageFailed
  else none

/-- The booking-persistence phase of `confirmBooking`, after the seats were
confirmed: set the reservation to COMPLETED, store the payment intent id,
reuse existing bookings or create one per seat, then run the
Firestore/SMS gate. -/
def confirmPersist (st : SysState) (r : Reservation) (rid : String)
    (pid : Option String) (seats' : List Seat) (existing : List Booking) :
    Except ConfirmError ConfirmResult × SysState :=
  let r' := { r with
    status := ReservationStatus.completed,
    paymentIntentId := if optTruthy pid then pid else r.paymentIntentId }
  let st1 := { st with seats := seats', reservations := saveRes st.reservations r' }
  match (if existing ≠ [] then Except.ok existing
         else createBookings seats' r st.nextBookingId r.seatIds) with
  | Except.error e => (Except.error e, st1)
  | Except.ok bs =>
    let st2 :=
      if existing ≠ [] then st1
      else { st1 with
             bookings := st1.bookings ++ bs,
             nextBookingId := st1.nextBookingId + bs.length }
    match fireGate st2 r with
    | some e => (Except.error e, st2)
    | none => (Except.ok ⟨rid, bs.map (fun b => b.bid), r.seatIds⟩, st2)

/-- The non-idempotent path of `confirmBooking`: status check, expiry
check (cancelling on expiry — the seat release and status change persist
before the throw), atomic seat confirmation with the fatal count check,
then `confirmPersist`. -/
def confirmMain (st : SysState) (r : Reservation) (rid : String)
    (pid : Option String) (now : Int) (existing : List Booking) :
    Except ConfirmError ConfirmResult × SysState :=
  if r.status ≠ ReservationStatus.pending_payment ∧
     r.status ≠ ReservationStatus.completed then
    (Except.error ConfirmError.invalidState, st)
  else if r.expiresAt < now then
    (Except.error ConfirmError.expired,
     { st with
       seats := (releaseSeatsByReservation st.seats rid).2,
       reservations := saveRes st.reservations { r with status := ReservationStatus.cancelled } })
  else
    let conf := atomicConfirmSeats st.seats r.seatIds rid
    if conf.1 ≠ r.seatIds.length then
      (Except.error ConfirmError.incompleteConfirm, { st with seats := conf.2 })
    else confirmPersist st r rid pid conf.2 existing

/-- `confirmBooking(reservationId, paymentIntentId)` from
bookings.service.ts. Branches, in source order:
1. reservation not found;
2. status COMPLETED with existing bookings: `confirmIdempotent`;
3. otherwise `confirmMain` (status check, expiry check with no
   numericState exemption, seat confirmation, booking persistence and the
   Firestore/SMS gate). -/
def confirmBooking (st : SysState) (rid : String) (pid : Option String) (now : Int) :
    Except ConfirmError ConfirmResult × SysState :=
  match findRes st.reservations rid with
  | none => (Except.error ConfirmError.notFound, st)
  | some r =>
    let existing := st.bookings.filter (fun b => b.reservationId = rid)
    if r.status = ReservationStatus.completed ∧ existing ≠ [] then
      confirmIdempotent st r rid pid existing
    else confirmMain st r rid pid now existing

/-! ## Expiry sweeper (seat-lock-expiry.service, `checkExpiredReservations`) -/

/-- The scan predicate of the sweeper:
`{status: PENDING_PAYMENT, numericState: CART_TO_PAYMENT, expiresAt: {$lt: now}}`
— state -2 (IN_PAYMENT_GATEWAY) is excluded. -/
def isExpiredCart (now : Int) (r : Reservation) : Bool :=
  r.status = ReservationStatus.pending_payment ∧ r.numericState = -1 ∧ r.expiresAt < now

/-- The body of the sweeper's loop for one expired lock: release its seats,
then save it with status CANCELLED and numericState -3 (TIMEOUT). -/
def sweepStep (acc : SysState) (l : Reservation) : SysState :=
  { acc with
    seats := (releaseSeatsByReservation acc.seats l.rid).2,
    reservations := saveRes acc.reservations
      { l with status := ReservationStatus.cancelled, numericState := -3 } }

/-- One pass of `checkExpiredReservations`: materialise the query result,
then process each hit in order. -/
def checkExpiredReservations (st : SysState) (now : Int) : SysState :=
  (st.reservations.filter (isExpiredCart now)).foldl sweepStep st

/-- The record the sweeper saves for an expired lock. -/
def timedOut (l : Reservation) : Reservation :=
  { l with status := ReservationStatus.cancelled, numericState := -3 }

/-- The per-document function of the sweeper's save on the reservation
collection. -/
def sweepResF (l : Reservation) (x : Reservation) : Reservation :=
  if x.rid = l.rid then timedOut l else x

/-! ## Payments (payments.service.ts) -/

inductive PayError where
  | resNotFound
  | notPendingPayment
  | amountMissing
  | gatewayFailed
deriving DecidableEq

/-- The durable effect of `createPaymentIntent(reservationId, customerInfo)`:
require status pending_payment and a computed amount; set the seats to
payment_pending under this reservation; reset any bookings of the
reservation to paymentState pending; save the customer info (only the
resolved phone number is modelled); call the gateway (its transaction id
is the `txid` parameter, its failure the `gatewayOk` flag — on failure the
earlier writes persist); on success set numericState to -2
(IN_PAYMENT_GATEWAY), store the transaction id and append the backup
record. The Firestore document and the pre-payment SMS do not touch the
modelled state. -/
def createPaymentIntent (st : SysState) (rid : String) (customerPhone : Option String)
    (txid : String) (gatewayOk : Bool) : Except PayError String × SysState :=
  match findRes st.reservations rid with
  | none => (Except.error PayError.resNotFound, st)
  | some r =>
    if r.status ≠ ReservationStatus.pending_payment then
      (Except.error PayError.notPendingPayment, st)
    else if r.amountSummary.isNone then (Except.error PayError.amountMissing, st)
    else
      let seats' := (setSeatsToPaymentPending st.seats r.seatIds rid).2
      let bookings' := st.bookings.map (fun b =>
        if b.reservationId = rid then { b with paymentState := PaymentState.pend } else b)
      let r1 :=
        match customerPhone with
        | some p => { r with phoneNumber := some p }
        | none => r
      let st1 := { st with
        seats := seats', bookings := bookings',
        reservations := saveRes st.reservations r1 }
      if ¬ gatewayOk then (Except.error PayError.gatewayFailed, st1)
      else
        let r2 := { r1 with numericState := -2, paymentIntentId := some txid }
        (Except.ok txid,
         { st1 with
           reservations := saveRes st1.reservations r2,
           backups := st1.backups ++ [{ rid := rid, paymentIntentId := some txid }] })

/-- The reservation lookup of `handleDialogGenieCallback`: primary store by
paymentIntentId, then the backup collection by paymentIntentId with the hit
resolved back to the primary store by its id. -/
def callbackLookup (st : SysState) (paymentId : String) : Option Reservation :=
  match st.reservations.find? (fun r => r.paymentIntentId = some paymentId) with
  | some r => some r
  | none =>
    match st.backups.find? (fun b => b.paymentIntentId = some paymentId) with
    | some b => findRes st.reservations b.rid
    | none => none

inductive CbErr where
  | notFound
  | confirmFailed (e : ConfirmError)
deriving DecidableEq

structure CbRes where
  success : Bool
  reservationId : String
deriving DecidableEq

/-- `handleDialogGenieCallback({paymentId, status})`: resolve the
reservation via `callbackLookup` (NotFound when both lookups miss). On a
SUCCESS verdict: set numericState to 1, save, run `confirmBooking`; on its
failure the catch block retries `confirmBooking` when bookings exist, then
in both cases the bookings of the reservation get paymentState SUCCESS and
a confirmation error is rethrown. On a FAILED verdict the bookings get
paymentState FAILED. (Mongo `modifiedCount` of those updateMany calls is
logged, not used; the `dialogPaymentId` field they also set is not read by
any claim and is not modelled.) -/
def handleDialogGenieCallback (st : SysState) (paymentId : String)
    (statusSuccess : Bool) (now : Int) : Except CbErr CbRes × SysState :=
  match callbackLookup st paymentId with
  | none => (Except.error CbErr.notFound, st)
  | some r0 =>
    if statusSuccess then
      let r1 := { r0 with numericState := 1 }
      let st1 := { st with reservations := saveRes st.reservations r1 }
      match confirmBooking st1 r0.rid (some paymentId) now with
      | (Except.ok _, st2) =>
        (Except.ok ⟨true, r0.rid⟩,
         { st2 with bookings := st2.bookings.map (fun b =>
             if b.reservationId = r0.rid then { b with paymentState := PaymentState.success }
             else b) })
      | (Except.error e, st2) =>
        let st3 :=
          if st2.bookings.filter (fun b => b.reservationId = r0.rid) ≠ [] then
            (confirmBooking st2 r0.rid (some paymentId) now).2
          else st2
        (Except.error (CbErr.confirmFailed e),
         { st3 with bookings := st3.bookings.map (fun b =>
             if b.reservationId = r0.rid then { b with paymentState := PaymentState.success }
             else b) })
    else
      (Except.ok ⟨false, r0.rid⟩,
       { st with bookings := st.bookings.map (fun b =>
           if b.reservationId = r0.rid then { b with paymentState := PaymentState.failed }
           else b) })

/-- The query parameters the redirect handler extracts: `paymentId` stands
for `query.id || query.transactionId || query.paymentId ||
query.transactionReference` and `localId` for `query.localId ||
query.reservationId`; an empty string behaves as absent at every use in the
handler, so both are normalised to `Option String` with `some ""`
excluded by the caller-side constructor below. -/
structure RedirectQuery where
  paymentId : Option String
  localId : Option String
  statusSuccess : Bool
deriving DecidableEq

inductive RedirectOutcome where
  | notFoundError
  | otherError (e : ConfirmError)
  | successPage (rid : String)
  | failedPage (rid : String)
deriving DecidableEq

/-- The payment id the redirect handler works with: every use in the
handler guards it with JS truthiness, so an empty string is normalised
to absence here. -/
def redirectPid (q : RedirectQuery) : Option String :=
  if optTruthy q.paymentId then q.paymentId else none

/-- Lookup (1) of the redirect handler: by reservation id (localId). -/
def redirectFound1 (st : SysState) (q : RedirectQuery) : Option Reservation :=
  match q.localId with
  | some l => findRes st.reservations l
  | none => none

/-- The `if (paymentId && !seatLock.paymentIntentId)` fill-in on the hit of
lookup (1): store the carried payment id when none was stored yet. -/
def redirectStamp (r : Reservation) (pid : Option String) : Reservation :=
  match pid with
  | some p =>
    if ¬ optTruthy r.paymentIntentId then { r with paymentIntentId := some p }
    else r
  | none => r

/-- The resolution stage of `handleDialogGenieRedirect`: lookup (1) by
reservation id, stamping the carried payment id onto the hit and saving it
(saving an unmodified document is a no-op, so the unconditional save
matches the source's conditional one); else lookup (2) by payment id
against the primary store. Returns the resolved reservation (none when
both lookups miss) and the possibly updated state. -/
def redirectResolve (st : SysState) (q : RedirectQuery) :
    Option Reservation × SysState :=
  match redirectFound1 st q with
  | some r =>
    let r' := redirectStamp r (redirectPid q)
    (some r', { st with reservations := saveRes st.reservations r' })
  | none =>
    match redirectPid q with
    | some p => (st.reservations.find? (fun r => r.paymentIntentId = some p), st)
    | none => (none, st)

/-- `paymentId || seatLock.paymentIntentId || ''` of the redirect handler. -/
def redirectFinalPaymentId (q : RedirectQuery) (r : Reservation) : String :=
  match redirectPid q with
  | some p => p
  | none => (if optTruthy r.paymentIntentId then r.paymentIntentId else none).getD ""

/-- `handleDialogGenieRedirect(query, res)`: resolve the reservation via
`redirectResolve`; redirect to the error page when it misses. Otherwise
delegate to `handleDialogGenieCallback` with `redirectFinalPaymentId` and
turn its outcome into a success, failed or error redirect (a
NotFoundException from the delegate reaches the error page too). -/
def handleDialogGenieRedirect (st : SysState) (q : RedirectQuery) (now : Int) :
    RedirectOutcome × SysState :=
  match redirectResolve st q with
  | (none, st1) => (RedirectOutcome.notFoundError, st1)
  | (some r, st1) =>
    match handleDialogGenieCallback st1 (redirectFinalPaymentId q r) q.statusSuccess now with
    | (Except.ok res, st2) =>
      if res.success then (RedirectOutcome.successPage r.rid, st2)
      else (RedirectOutcome.failedPage r.rid, st2)
    | (Except.error CbErr.notFound, st2) => (RedirectOutcome.notFoundError, st2)
    | (Except.error (CbErr.confirmFailed e), st2) => (RedirectOutcome.otherError e, st2)

/-! ## Store-level TTL purge (user.schema.ts / seat-lock.schema.ts) -/

/-- The TTL purge predicate declared by
`SeatLockSchema.index({expiresAt: 1}, {expireAfterSeconds: 0})`: MongoDB
deletes every document whose `expiresAt` lies in the past. The index
declaration carries no partialFilterExpression, so eligibility is
independent of `status` and `numericState`. -/
def ttlEligible (r : Reservation) (now : Int) : Bool :=
  r.expiresAt < now

/-! ## Stated properties -/

/-- The seat-store invariant of the spec: a seat's hold reference is
non-null exactly when the seat is payment_pending. -/
def HoldInvariant (seats : List Seat) : Prop :=
  ∀ s ∈ seats, (s.pendingReservationId ≠ none ↔ s.state = SeatState.payment_pending)

/-- Every reservation of the first store survives (by id) into the second:
the application never deletes reservation records. -/
def ridKeeps (rs rs' : List Reservation) : Prop :=
  ∀ x ∈ rs, ∃ y ∈ rs', y.rid = x.rid

/-- No reservation that has left numeric state -1 (CART) is put back into
it by a transition from the first store to the second. -/
def noRevert (rs rs' : List Reservation) : Prop :=
  ∀ x ∈ rs, x.numericState ≠ -1 → ∀ y ∈ rs', y.rid = x.rid → y.numericState ≠ -1

/-- Reservation ids are pairwise distinct (Mongo `_id` uniqueness). -/
def NodupRids (rs : List Reservation) : Prop :=
  (rs.map Reservation.rid).Nodup

/-! ## Spec-side pricing, for the refinement claim about
`calculateAmountWithSeatAssignments`. These definitions follow the words
of the spec sentence — "each seat's unit price is resolved by priority:
(a) the price for the seat's assigned ticket-type tier for the requested
age class, (b) the seat's own override price, (c) the event's default
price — then summed; a configurable commission (percentage of subtotal,
or flat per seat) and taxes are added" — not the code. -/

/-- The unit price of one seat as the spec words it: the adult or child
price of the seat's assigned tier when that tier exists on the event,
else the seat's own override price, else the event's default price. -/
def specSeatUnitPrice (event : Event) (assigns : List SeatAssignment) (s : Seat) : ℚ :=
  match s.ticketType with
  | some t =>
    match event.ticketTypes.find? (fun tt => tt.name = t) with
    | some tier =>
      match assignedClass assigns s.sid with
      | AgeClass.adult => tier.adultPrice
      | AgeClass.child => tier.childPrice
    | none =>
      match s.basePrice with
      | some p => p
      | none => event.defaultPrice
  | none =>
    match s.basePrice with
    | some p => p
    | none => event.defaultPrice

/-- The price summary as the spec words it: subtotal is the sum of unit
prices; commission is subtotal times the percentage, or the flat value
times the seat count (nothing when the event has no commission config);
total is subtotal plus commission plus taxes (zero here). -/
def specPriceSummary (seats : List Seat) (event : Event)
    (assigns : List SeatAssignment) : AmountSummary :=
  let subtotal := (seats.map (specSeatUnitPrice event assigns)).sum
  let commission :=
    match event.commission with
    | some c =>
      match c.ctype with
      | CommissionType.percentage => subtotal * (c.value / 100)
      | CommissionType.flat => c.value * (seats.length : ℚ)
    | none => 0
  let taxes : ℚ := 0
  ⟨subtotal, commission, taxes, subtotal + commission + taxes⟩

/-! ## The operations of the system as a step relation -/

/-- One application-level operation on the shared durable state. Every
constructor takes the post-state straight from the corresponding operation
(error outcomes included, since their partial writes persist). -/
inductive SysStep : SysState → SysState → Prop where
  | create (st : SysState) (eventId : String) (seatIds : List String)
      (holdSeconds : Int) (newRid : String) (now : Int) :
      SysStep st (createReservation st eventId seatIds holdSeconds newRid now).2
  | tickets (st : SysState) (rid : String) (adults kids : Nat)
      (assigns : List SeatAssignment) :
      SysStep st (updateTickets st rid adults kids assigns).2
  | payIntent (st : SysState) (rid : String) (customerPhone : Option String)
      (txid : String) (gatewayOk : Bool) :
      SysStep st (createPaymentIntent st rid customerPhone txid gatewayOk).2
  | confirm (st : SysState) (rid : String) (pid : Option String) (now : Int) :
      SysStep st (confirmBooking st rid pid now).2
  | cancel (st : SysState) (rid : String) :
      SysStep st (cancelReservation st rid).2
  | sweep (st : SysState) (now : Int) :
      SysStep st (checkExpiredReservations st now)
  | callback (st : SysState) (paymentId : String) (statusSuccess : Bool) (now : Int) :
      SysStep st (handleDialogGenieCallback st paymentId statusSuccess now).2
  | redirect (st : SysState) (q : RedirectQuery) (now : Int) :
      SysStep st (handleDialogGenieRedirect st q now).2

/-- Finite sequences of operations. -/
def SysSteps : SysState → SysState → Prop :=
  Relation.ReflTransGen SysStep

/-! # Theorems -/

/-! ## C1 — confirmation does not exempt AT_GATEWAY from expiry -/

/-- C1: counter-evidence from the code. The claim says `confirmBooking`
accepts an AT_GATEWAY (-2) reservation no matter how far past `expiresAt`
the clock is. On this input the reservation has numericState -2 and status
pending_payment, the call happens 100 time units past `expiresAt`, and
`confirmBooking` rejects it as expired, cancels it and releases its seat:
the expiry check at bookings.service.ts lines 294-298 never consults
`numericState`. -/
theorem c1_gateway_reservation_rejected_as_expired :
    (⟨"r1", "e1", ["s1"], ReservationStatus.pending_payment, -2, 100,
       some ⟨10, 1, 0, 11⟩, none, some "07"⟩ : Reservation).numericState = -2 ∧
    ((100 : Int) < 200) ∧
    (confirmBooking
      ⟨[⟨"r1", "e1", ["s1"], ReservationStatus.pending_payment, -2, 100,
          some ⟨10, 1, 0, 11⟩, none, some "07"⟩],
        [⟨"s1", "e1", SeatState.payment_pending, some "r1", none, some 10⟩],
        [], [], [⟨"e1", 10, [], none, true, none, none⟩], 0, ⟨true, true⟩⟩
      "r1" (some "pay1") 200).1 = Except.error ConfirmError.expired ∧
    (confirmBooking
      ⟨[⟨"r1", "e1", ["s1"], ReservationStatus.pending_payment, -2, 100,
          some ⟨10, 1, 0, 11⟩, none, some "07"⟩],
        [⟨"s1", "e1", SeatState.payment_pending, some "r1", none, some 10⟩],
        [], [], [⟨"e1", 10, [], none, true, none, none⟩], 0, ⟨true, true⟩⟩
      "r1" (some "pay1") 200).2.reservations =
      [⟨"r1", "e1", ["s1"], ReservationStatus.cancelled, -2, 100,
         some ⟨10, 1, 0, 11⟩, none, some "07"⟩] ∧
    (confirmBooking
      ⟨[⟨"r1", "e1", ["s1"], ReservationStatus.pending_payment, -2, 100,
          some ⟨10, 1, 0, 11⟩, none, some "07"⟩],
        [⟨"s1", "e1", SeatState.payment_pending, some "r1", none, some 10⟩],
        [], [], [⟨"e1", 10, [], none, true, none, none⟩], 0, ⟨true, true⟩⟩
      "r1" (some "pay1") 200).2.seats =
      [⟨"s1", "e1", SeatState.available, none, none, some 10⟩] :=
  ⟨rfl, by decide, rfl, rfl, rfl⟩

/-! ## C2 — what one sweep pass touches -/

/-- C2 counterexample: the claim says a sweep pass transitions to
TIMED_OUT, and releases the seats of, exactly the reservations with
numericState -1 and `expiresAt < now`. This reservation has numericState
-1 and is past its expiry, yet the sweep leaves the whole state untouched
(its seat stays payment_pending and its numericState stays -1), because
the scan additionally filters on status PENDING_PAYMENT and this
reservation's status is CANCELLED. -/
theorem c2_sweep_skips_cancelled_cart_reservation :
    (⟨"r1", "e1", ["s1"], ReservationStatus.cancelled, -1, 100,
       none, none, none⟩ : Reservation).numericState = -1 ∧
    ((100 : Int) < 200) ∧
    checkExpiredReservations
      ⟨[⟨"r1", "e1", ["s1"], ReservationStatus.cancelled, -1, 100, none, none, none⟩],
        [⟨"s1", "e1", SeatState.payment_pending, some "r1", none, none⟩],
        [], [], [], 0, ⟨true, true⟩⟩ 200 =
      ⟨[⟨"r1", "e1", ["s1"], ReservationStatus.cancelled, -1, 100, none, none, none⟩],
        [⟨"s1", "e1", SeatState.payment_pending, some "r1", none, none⟩],
        [], [], [], 0, ⟨true, true⟩⟩ :=
  ⟨rfl, by decide, rfl⟩

/-! ## C7 — deletion of reservation records -/

/-- C7 counterexample: the claim says the store-level TTL purge never
deletes a record in AT_GATEWAY. The TTL index is declared on `expiresAt`
alone with expireAfterSeconds 0 and no partial filter, so this AT_GATEWAY
record past its expiry is eligible for deletion. -/
theorem c7_ttl_purges_gateway_record :
    ttlEligible
      ⟨"r1", "e1", ["s1"], ReservationStatus.pending_payment, -2, 100,
        some ⟨10, 1, 0, 11⟩, some "pay1", none⟩ 200 = true ∧
    (⟨"r1", "e1", ["s1"], ReservationStatus.pending_payment, -2, 100,
       some ⟨10, 1, 0, 11⟩, some "pay1", none⟩ : Reservation).numericState = -2 :=
  ⟨by decide, rfl⟩

/-! ## C10 — setSeatsToPaymentPending ignores the current hold -/

/-- C10: the update run by `createPaymentIntent` before the gateway
redirect matches every requested seat in state available or
payment_pending without comparing the seat's current hold reference
(first conjunct: any such seat, whatever its `pendingReservationId`, is
rewritten to payment_pending under the calling reservation), and
consequently a seat that is payment_pending under a different reservation
has its hold overwritten (second conjunct: a concrete such input). -/
theorem c10_payment_pending_update_ignores_hold :
    (∀ (seats : List Seat) (seatIds : List String) (rid : String) (s : Seat),
        s ∈ seats → s.sid ∈ seatIds →
        (s.state = SeatState.available ∨ s.state = SeatState.payment_pending) →
        { s with state := SeatState.payment_pending, pendingReservationId := some rid } ∈
          (setSeatsToPaymentPending seats seatIds rid).2) ∧
    (setSeatsToPaymentPending
        [⟨"s1", "e1", SeatState.payment_pending, some "r2", none, none⟩] ["s1"] "r1").2 =
      [⟨"s1", "e1", SeatState.payment_pending, some "r1", none, none⟩] := by
  constructor
  · intro seats seatIds rid s hs hsid hstate
    have hmem := List.mem_map_of_mem
      (f := fun s : Seat =>
        if (s.sid ∈ seatIds ∧
            (s.state = SeatState.available ∨ s.state = SeatState.payment_pending) : Prop) then
          { s with state := SeatState.payment_pending, pendingReservationId := some rid }
        else s) hs
    simpa [setSeatsToPaymentPending, hsid, hstate] using hmem
  · rfl

/-- C10 witness: the first conjunct applied to a one-seat store holding a
seat that is payment_pending under reservation r2. -/
theorem c10_witness :
    { sid := "s1", eventId := "e1", state := SeatState.payment_pending,
      pendingReservationId := some "r1", ticketType := none, basePrice := none : Seat } ∈
      (setSeatsToPaymentPending
        [⟨"s1", "e1", SeatState.payment_pending, some "r2", none, none⟩] ["s1"] "r1").2 := by
  have h := c10_payment_pending_update_ignores_hold.1
    [⟨"s1", "e1", SeatState.payment_pending, some "r2", none, none⟩] ["s1"] "r1"
    ⟨"s1", "e1", SeatState.payment_pending, some "r2", none, none⟩
    (by simp) (by simp) (Or.inr rfl)
  simpa using h

/-! ## C5 — the hold-reference invariant -/

/-- C5 counterexample: `setSeatBroken` changes the state without clearing
or replacing the hold reference, so marking a payment_pending seat broken
leaves a broken seat with a non-null hold: the invariant fails afterwards. -/
theorem c5_set_broken_breaks_hold_invariant :
    HoldInvariant [⟨"s1", "e1", SeatState.payment_pending, some "r1", none, none⟩] ∧
    setSeatBroken [⟨"s1", "e1", SeatState.payment_pending, some "r1", none, none⟩] "s1" true =
      some [⟨"s1", "e1", SeatState.broken, some "r1", none, none⟩] ∧
    ¬ HoldInvariant [⟨"s1", "e1", SeatState.broken, some "r1", none, none⟩] := by
  refine ⟨?_, rfl, ?_⟩
  · intro s hs
    simp only [List.mem_singleton] at hs
    subst hs
    simp
  · intro h
    have := h ⟨"s1", "e1", SeatState.broken, some "r1", none, none⟩ (by simp)
    simp at this

/-- A mapped store satisfies the hold invariant when every image does. -/
lemma holdInvariant_map {seats : List Seat} {f : Seat → Seat}
    (h : ∀ s ∈ seats,
      ((f s).pendingReservationId ≠ none ↔ (f s).state = SeatState.payment_pending)) :
    HoldInvariant (seats.map f) := by
  intro s' hs'
  obtain ⟨s, hs, rfl⟩ := List.mem_map.mp hs'
  exact h s hs

lemma holdInvariant_lockOne {seats : List Seat} {sid rid : String}
    (h : HoldInvariant seats) : HoldInvariant (lockOne seats sid rid).2 := by
  simp only [lockOne]
  apply holdInvariant_map
  intro s hs
  by_cases hc : s.sid = sid ∧ s.state = SeatState.available
  · simp [lockSeatF, hc]
  · simpa [lockSeatF, hc] using h s hs

lemma holdInvariant_lockLoop {seats : List Seat} {rid : String}
    (ids : List String) (h : HoldInvariant seats) :
    HoldInvariant (lockLoop seats rid ids).1 := by
  induction ids generalizing seats with
  | nil => simpa [lockLoop] using h
  | cons sid rest ih =>
    simp only [lockLoop]
    split
    · exact ih (holdInvariant_lockOne h)
    · exact ih (holdInvariant_lockOne h)

lemma holdInvariant_rollback {seats : List Seat} {ids : List String}
    (h : HoldInvariant seats) : HoldInvariant (rollbackLocked seats ids) := by
  simp only [rollbackLocked]
  apply holdInvariant_map
  intro s hs
  by_cases hc : s.sid ∈ ids
  · simp [rollbackF, hc]
  · simpa [rollbackF, hc] using h s hs

/-- C5 amended: the atomic seat-store operations — lock-with-rollback,
confirm, set-to-payment-pending and release — preserve the invariant that
a seat's hold reference is non-null exactly when the seat is
payment_pending, each clearing or replacing the hold in the same update
as the state change. (`setSeatBroken` is the exception the counterexample
exhibits: it changes the state without touching the hold.) -/
theorem c5_amended_atomic_ops_preserve_hold_invariant :
    (∀ (seats : List Seat) (ids : List String) (rid : String),
       HoldInvariant seats → HoldInvariant (atomicLockSeats seats ids rid).2) ∧
    (∀ (seats : List Seat) (ids : List String) (rid : String),
       HoldInvariant seats → HoldInvariant (atomicConfirmSeats seats ids rid).2) ∧
    (∀ (seats : List Seat) (ids : List String) (rid : String),
       HoldInvariant seats → HoldInvariant (setSeatsToPaymentPending seats ids rid).2) ∧
    (∀ (seats : List Seat) (rid : String),
       HoldInvariant seats → HoldInvariant (releaseSeatsByReservation seats rid).2) := by
  refine ⟨?_, ?_, ?_, ?_⟩
  · intro seats ids rid h
    simp only [atomicLockSeats]
    split
    · exact holdInvariant_rollback (holdInvariant_lockLoop ids h)
    · exact holdInvariant_lockLoop ids h
  · intro seats ids rid h
    simp only [atomicConfirmSeats]
    apply holdInvariant_map
    intro s hs
    by_cases hc : s.sid ∈ ids ∧ s.state = SeatState.payment_pending ∧
      s.pendingReservationId = some rid
    · simp [hc]
    · simpa [hc] using h s hs
  · intro seats ids rid h
    simp only [setSeatsToPaymentPending]
    apply holdInvariant_map
    intro s hs
    by_cases hc : s.sid ∈ ids ∧
      (s.state = SeatState.available ∨ s.state = SeatState.payment_pending)
    · simp [hc]
    · simpa [hc] using h s hs
  · intro seats rid h
    simp only [releaseSeatsByReservation]
    apply holdInvariant_map
    intro s hs
    by_cases hc : s.pendingReservationId = some rid ∧ s.state = SeatState.payment_pending
    · simp [relSeatF, hc]
    · simpa [relSeatF, hc] using h s hs

/-- C5 witness: the release conjunct applied to a store holding one
payment_pending seat under reservation r1. -/
theorem c5_witness :
    HoldInvariant (releaseSeatsByReservation
      [⟨"s1", "e1", SeatState.payment_pending, some "r1", none, none⟩] "r1").2 := by
  apply c5_amended_atomic_ops_preserve_hold_invariant.2.2.2
    [⟨"s1", "e1", SeatState.payment_pending, some "r1", none, none⟩] "r1"
  intro s hs
  simp only [List.mem_singleton] at hs
  subst hs
  simp

/-! Sweep-pass machinery: the fold over the expired locks acts on the
reservation and seat collections independently, and each action is a map,
so the whole pass is a per-document function. -/

lemma sweep_reservations_eq (ls : List Reservation) (acc : SysState) :
    (ls.foldl sweepStep acc).reservations =
      ls.foldl (fun rs l => rs.map (sweepResF l)) acc.reservations := by
  induction ls generalizing acc with
  | nil => rfl
  | cons l tl ih =>
    simp only [List.foldl_cons]
    rw [ih]
    rfl

lemma sweep_seats_eq (ls : List Reservation) (acc : SysState) :
    (ls.foldl sweepStep acc).seats =
      ls.foldl (fun ss l => ss.map (relSeatF l.rid)) acc.seats := by
  induction ls generalizing acc with
  | nil => rfl
  | cons l tl ih =>
    simp only [List.foldl_cons]
    rw [ih]
    rfl

/-- Folding maps over a list is mapping the pointwise fold. -/
lemma foldl_map_comm {α β : Type} (g : α → β → β) (l : List α) (xs : List β) :
    l.foldl (fun acc a => acc.map (g a)) xs =
      xs.map (fun x => l.foldl (fun y a => g a y) x) := by
  induction l generalizing xs with
  | nil => simp
  | cons a tl ih =>
    simp only [List.foldl_cons]
    rw [ih, List.map_map]
    rfl

lemma relSeatF_id {rid : String} {s : Seat}
    (h : ¬(s.pendingReservationId = some rid ∧ s.state = SeatState.payment_pending)) :
    relSeatF rid s = s := by
  simp [relSeatF, h]

lemma scalar_rel_skip {ls : List Reservation} {s : Seat}
    (h : ∀ l ∈ ls, s.pendingReservationId ≠ some l.rid) :
    ls.foldl (fun y l => relSeatF l.rid y) s = s := by
  induction ls with
  | nil => rfl
  | cons l tl ih =>
    rw [List.foldl_cons, relSeatF_id (fun hc => h l (List.mem_cons_self l tl) hc.1)]
    exact ih (fun l' hl' => h l' (List.mem_cons_of_mem l hl'))

lemma scalar_rel_hits {ls : List Reservation} {s : Seat} {l0 : Reservation}
    (hl0 : l0 ∈ ls) (hhold : s.pendingReservationId = some l0.rid)
    (hst : s.state = SeatState.payment_pending) :
    ls.foldl (fun y l => relSeatF l.rid y) s =
      { s with state := SeatState.available, pendingReservationId := none } := by
  induction ls with
  | nil => cases hl0
  | cons l tl ih =>
    rw [List.foldl_cons]
    by_cases hc : s.pendingReservationId = some l.rid
    · have hstep : relSeatF l.rid s =
          { s with state := SeatState.available, pendingReservationId := none } := by
        simp [relSeatF, hc, hst]
      rw [hstep]
      exact scalar_rel_skip (fun l' _ => by simp)
    · rw [relSeatF_id (fun hcc => hc hcc.1)]
      rcases List.mem_cons.mp hl0 with rfl | hmem
      · exact absurd hhold hc
      · exact ih hmem

lemma sweepResF_id {l x : Reservation} (h : x.rid ≠ l.rid) : sweepResF l x = x := by
  simp [sweepResF, h]

lemma scalar_res_skip {ls : List Reservation} {x : Reservation}
    (h : ∀ l ∈ ls, x.rid ≠ l.rid) :
    ls.foldl (fun y l => sweepResF l y) x = x := by
  induction ls with
  | nil => rfl
  | cons l tl ih =>
    rw [List.foldl_cons, sweepResF_id (h l (List.mem_cons_self l tl))]
    exact ih (fun l' hl' => h l' (List.mem_cons_of_mem l hl'))

lemma scalar_res_hits {ls : List Reservation} {x l0 : Reservation}
    (hnd : (ls.map Reservation.rid).Nodup) (hl0 : l0 ∈ ls) (hx : x.rid = l0.rid) :
    ls.foldl (fun y l => sweepResF l y) x = timedOut l0 := by
  induction ls with
  | nil => cases hl0
  | cons l tl ih =>
    rw [List.map_cons] at hnd
    have hnd' := List.nodup_cons.mp hnd
    rw [List.foldl_cons]
    by_cases hc : x.rid = l.rid
    · have hstep : sweepResF l x = timedOut l := by simp [sweepResF, hc]
      rw [hstep]
      rcases List.mem_cons.mp hl0 with rfl | hmem
      · apply scalar_res_skip
        intro l' hl' he
        have hel : (timedOut l0).rid = l0.rid := rfl
        rw [hel] at he
        exact hnd'.1 (he ▸ List.mem_map_of_mem Reservation.rid hl')
      · exfalso
        have hmm : l0.rid ∈ tl.map Reservation.rid := List.mem_map_of_mem _ hmem
        rw [← hx, hc] at hmm
        exact hnd'.1 hmm
    · rw [sweepResF_id hc]
      rcases List.mem_cons.mp hl0 with rfl | hmem
      · exact absurd hx hc
      · exact ih hnd'.2 hmem

/-- Two reservations of a store with distinct ids that share an id are the
same record. -/
lemma rid_inj {rs : List Reservation} (hn : NodupRids rs) {a b : Reservation}
    (ha : a ∈ rs) (hb : b ∈ rs) (h : a.rid = b.rid) : a = b :=
  List.inj_on_of_nodup_map hn ha hb h

/-- C2 amended: a single sweep pass transitions to TIMED_OUT (numericState
-3, status CANCELLED), and releases the payment_pending seats of, exactly
those reservations whose status is PENDING_PAYMENT with numericState -1
(CART) and expiresAt < now; every other reservation — in particular one in
AT_GATEWAY (-2), however far past expiresAt — is left untouched together
with the seats it holds. -/
theorem c2_amended_sweep_characterisation (st : SysState) (now : Int)
    (hn : NodupRids st.reservations) :
    (∀ r ∈ st.reservations,
       (r.status = ReservationStatus.pending_payment ∧ r.numericState = -1 ∧
         r.expiresAt < now) →
       (timedOut r ∈ (checkExpiredReservations st now).reservations ∧
        ∀ s ∈ st.seats, s.pendingReservationId = some r.rid →
          s.state = SeatState.payment_pending →
          { s with state := SeatState.available, pendingReservationId := none } ∈
            (checkExpiredReservations st now).seats)) ∧
    (∀ r ∈ st.reservations,
       ¬(r.status = ReservationStatus.pending_payment ∧ r.numericState = -1 ∧
          r.expiresAt < now) →
       (r ∈ (checkExpiredReservations st now).reservations ∧
        ∀ s ∈ st.seats, s.pendingReservationId = some r.rid →
          s ∈ (checkExpiredReservations st now).seats)) := by
  have hres : (checkExpiredReservations st now).reservations =
      st.reservations.map (fun x =>
        (st.reservations.filter (isExpiredCart now)).foldl (fun y l => sweepResF l y) x) := by
    unfold checkExpiredReservations
    rw [sweep_reservations_eq, foldl_map_comm]
  have hseats : (checkExpiredReservations st now).seats =
      st.seats.map (fun x =>
        (st.reservations.filter (isExpiredCart now)).foldl (fun y l => relSeatF l.rid y) x) := by
    unfold checkExpiredReservations
    rw [sweep_seats_eq, foldl_map_comm]
  have hndf : ((st.reservations.filter (isExpiredCart now)).map Reservation.rid).Nodup :=
    List.Nodup.sublist (List.Sublist.map _ (List.filter_sublist _)) hn
  have hselMem : ∀ r ∈ st.reservations,
      (r.status = ReservationStatus.pending_payment ∧ r.numericState = -1 ∧
        r.expiresAt < now) →
      r ∈ st.reservations.filter (isExpiredCart now) := by
    intro r hr hsel
    refine List.mem_filter.mpr ⟨hr, ?_⟩
    simp [isExpiredCart, hsel.1, hsel.2.1, hsel.2.2]
  constructor
  · intro r hr hsel
    constructor
    · rw [hres]
      exact List.mem_map.mpr ⟨r, hr, scalar_res_hits hndf (hselMem r hr hsel) rfl⟩
    · intro s hs hhold hpend
      rw [hseats]
      exact List.mem_map.mpr ⟨s, hs, scalar_rel_hits (hselMem r hr hsel) hhold hpend⟩
  · intro r hr hnsel
    have hskip : ∀ l ∈ st.reservations.filter (isExpiredCart now), r.rid ≠ l.rid := by
      intro l hl he
      have hlm := List.mem_filter.mp hl
      have hleq : l = r := rid_inj hn hlm.1 hr (by rw [he])
      subst hleq
      have : l.status = ReservationStatus.pending_payment ∧ l.numericState = -1 ∧
          l.expiresAt < now := by
        simpa [isExpiredCart] using hlm.2
      exact hnsel this
    constructor
    · rw [hres]
      exact List.mem_map.mpr ⟨r, hr, scalar_res_skip hskip⟩
    · intro s hs hhold
      rw [hseats]
      refine List.mem_map.mpr ⟨s, hs, scalar_rel_skip ?_⟩
      intro l hl he
      rw [hhold] at he
      exact hskip l hl (by injection he)

/-- C2 witness: the characterisation applied to a store with one expired
CART reservation holding one payment_pending seat: the sweep times the
reservation out and releases the seat. -/
theorem c2_witness :
    timedOut ⟨"r1", "e1", ["s1"], ReservationStatus.pending_payment, -1, 100,
        none, none, none⟩ ∈
      (checkExpiredReservations
        ⟨[⟨"r1", "e1", ["s1"], ReservationStatus.pending_payment, -1, 100, none, none, none⟩],
          [⟨"s1", "e1", SeatState.payment_pending, some "r1", none, none⟩],
          [], [], [], 0, ⟨true, true⟩⟩ 200).reservations ∧
    (⟨"s1", "e1", SeatState.available, none, none, none⟩ : Seat) ∈
      (checkExpiredReservations
        ⟨[⟨"r1", "e1", ["s1"], ReservationStatus.pending_payment, -1, 100, none, none, none⟩],
          [⟨"s1", "e1", SeatState.payment_pending, some "r1", none, none⟩],
          [], [], [], 0, ⟨true, true⟩⟩ 200).seats := by
  have h := (c2_amended_sweep_characterisation
    ⟨[⟨"r1", "e1", ["s1"], ReservationStatus.pending_payment, -1, 100, none, none, none⟩],
      [⟨"s1", "e1", SeatState.payment_pending, some "r1", none, none⟩],
      [], [], [], 0, ⟨true, true⟩⟩ 200 (by simp [NodupRids])).1
    ⟨"r1", "e1", ["s1"], ReservationStatus.pending_payment, -1, 100, none, none, none⟩
    (by simp) ⟨rfl, rfl, by decide⟩
  exact ⟨h.1, h.2 ⟨"s1", "e1", SeatState.payment_pending, some "r1", none, none⟩
    (by simp) rfl rfl⟩

/-! Persistence of reservation records: no operation deletes a document,
so the id of every record survives every step. -/

lemma ridKeeps_refl (rs : List Reservation) : ridKeeps rs rs :=
  fun x hx => ⟨x, hx, rfl⟩

lemma ridKeeps_trans {a b c : List Reservation}
    (h1 : ridKeeps a b) (h2 : ridKeeps b c) : ridKeeps a c := by
  intro x hx
  obtain ⟨y, hy, hxy⟩ := h1 x hx
  obtain ⟨z, hz, hyz⟩ := h2 y hy
  exact ⟨z, hz, by rw [hyz, hxy]⟩

lemma ridKeeps_map {rs : List Reservation} {f : Reservation → Reservation}
    (hf : ∀ x ∈ rs, (f x).rid = x.rid) : ridKeeps rs (rs.map f) :=
  fun x hx => ⟨f x, List.mem_map_of_mem f hx, hf x hx⟩

lemma ridKeeps_saveRes (rs : List Reservation) (r : Reservation) :
    ridKeeps rs (saveRes rs r) := by
  unfold saveRes
  apply ridKeeps_map
  intro x _
  by_cases hc : x.rid = r.rid
  · simp [hc]
  · simp [hc]

lemma ridKeeps_append (rs l : List Reservation) : ridKeeps rs (rs ++ l) :=
  fun x hx => ⟨x, List.mem_append_left _ hx, rfl⟩

lemma createReservation_ridKeeps (st : SysState) (eventId : String)
    (seatIds : List String) (holdSeconds : Int) (newRid : String) (now : Int) :
    ridKeeps st.reservations
      (createReservation st eventId seatIds holdSeconds newRid now).2.reservations := by
  unfold createReservation
  dsimp only
  repeat' split
  all_goals first
    | exact ridKeeps_refl _
    | exact ridKeeps_append _ _

lemma updateTickets_ridKeeps (st : SysState) (rid : String) (adults kids : Nat)
    (assigns : List SeatAssignment) :
    ridKeeps st.reservations (updateTickets st rid adults kids assigns).2.reservations := by
  unfold updateTickets
  dsimp only
  repeat' split
  all_goals first
    | exact ridKeeps_refl _
    | exact ridKeeps_saveRes _ _

lemma cancelReservation_ridKeeps (st : SysState) (rid : String) :
    ridKeeps st.reservations (cancelReservation st rid).2.reservations := by
  unfold cancelReservation
  repeat' split
  all_goals first
    | exact ridKeeps_refl _
    | exact ridKeeps_saveRes _ _

lemma confirmIdempotent_ridKeeps (st : SysState) (r : Reservation) (rid : String)
    (pid : Option String) (existing : List Booking) :
    ridKeeps st.reservations
      (confirmIdempotent st r rid pid existing).2.reservations :=
  ridKeeps_saveRes _ _

lemma confirmPersist_ridKeeps (st : SysState) (r : Reservation) (rid : String)
    (pid : Option String) (seats' : List Seat) (existing : List Booking) :
    ridKeeps st.reservations
      (confirmPersist st r rid pid seats' existing).2.reservations := by
  unfold confirmPersist
  dsimp only
  repeat' split
  all_goals exact ridKeeps_saveRes _ _

lemma confirmMain_ridKeeps (st : SysState) (r : Reservation) (rid : String)
    (pid : Option String) (now : Int) (existing : List Booking) :
    ridKeeps st.reservations
      (confirmMain st r rid pid now existing).2.reservations := by
  unfold confirmMain
  dsimp only
  repeat' split
  all_goals first
    | exact ridKeeps_refl _
    | exact ridKeeps_saveRes _ _
    | exact confirmPersist_ridKeeps _ _ _ _ _ _

lemma confirmBooking_ridKeeps (st : SysState) (rid : String) (pid : Option String)
    (now : Int) :
    ridKeeps st.reservations (confirmBooking st rid pid now).2.reservations := by
  unfold confirmBooking
  split
  · exact ridKeeps_refl _
  · dsimp only
    split
    · exact confirmIdempotent_ridKeeps _ _ _ _ _
    · exact confirmMain_ridKeeps _ _ _ _ _ _

lemma createPaymentIntent_ridKeeps (st : SysState) (rid : String)
    (customerPhone : Option String) (txid : String) (gatewayOk : Bool) :
    ridKeeps st.reservations
      (createPaymentIntent st rid customerPhone txid gatewayOk).2.reservations := by
  unfold createPaymentIntent
  dsimp only
  repeat' split
  all_goals first
    | exact ridKeeps_refl _
    | exact ridKeeps_saveRes _ _
    | exact ridKeeps_trans (ridKeeps_saveRes _ _) (ridKeeps_saveRes _ _)

lemma scalar_res_rid (ls : List Reservation) (x : Reservation) :
    (ls.foldl (fun y l => sweepResF l y) x).rid = x.rid := by
  induction ls generalizing x with
  | nil => rfl
  | cons l tl ih =>
    rw [List.foldl_cons]
    rw [ih]
    unfold sweepResF
    by_cases hc : x.rid = l.rid
    · simp [hc, timedOut]
    · simp [hc]

lemma sweep_ridKeeps (st : SysState) (now : Int) :
    ridKeeps st.reservations (checkExpiredReservations st now).reservations := by
  unfold checkExpiredReservations
  rw [sweep_reservations_eq, foldl_map_comm]
  exact ridKeeps_map (fun x _ => scalar_res_rid _ x)

lemma callback_ridKeeps (st : SysState) (paymentId : String) (statusSuccess : Bool)
    (now : Int) :
    ridKeeps st.reservations
      (handleDialogGenieCallback st paymentId statusSuccess now).2.reservations := by
  unfold handleDialogGenieCallback
  cases hlk : callbackLookup st paymentId with
  | none => exact ridKeeps_refl _
  | some r0 =>
    cases statusSuccess with
    | false => exact ridKeeps_refl _
    | true =>
      dsimp only
      have h1 : ridKeeps st.reservations
          (saveRes st.reservations { r0 with numericState := 1 }) :=
        ridKeeps_saveRes _ _
      rcases hcb : confirmBooking
          { st with reservations := saveRes st.reservations { r0 with numericState := 1 } }
          r0.rid (some paymentId) now with ⟨res, st2⟩
      have h2 : ridKeeps (saveRes st.reservations { r0 with numericState := 1 })
          st2.reservations := by
        have := confirmBooking_ridKeeps
          { st with reservations := saveRes st.reservations { r0 with numericState := 1 } }
          r0.rid (some paymentId) now
        rwa [hcb] at this
      have h12 := ridKeeps_trans h1 h2
      cases res with
      | ok v => exact h12
      | error e =>
        dsimp only
        by_cases hb : st2.bookings.filter (fun b => b.reservationId = r0.rid) ≠ []
        · rw [if_pos hb]
          rcases hcb2 : confirmBooking st2 r0.rid (some paymentId) now with ⟨res2, st3⟩
          have h3 : ridKeeps st2.reservations st3.reservations := by
            have := confirmBooking_ridKeeps st2 r0.rid (some paymentId) now
            rwa [hcb2] at this
          exact ridKeeps_trans h12 h3
        · rw [if_neg hb]
          exact h12

/-- The state a redirect leaves behind: the resolve stage's state when the
lookup misses, else whatever the delegated callback leaves. -/
lemma redirect_state (st : SysState) (q : RedirectQuery) (now : Int) :
    (handleDialogGenieRedirect st q now).2 =
      (match redirectResolve st q with
       | (none, st1) => st1
       | (some r, st1) =>
         (handleDialogGenieCallback st1 (redirectFinalPaymentId q r) q.statusSuccess now).2) := by
  unfold handleDialogGenieRedirect
  rcases redirectResolve st q with ⟨opt, st1⟩
  cases opt with
  | none => rfl
  | some r =>
    rcases hcb : handleDialogGenieCallback st1 (redirectFinalPaymentId q r) q.statusSuccess now
      with ⟨res, st2⟩
    cases res with
    | ok v =>
      simp only [hcb]
      split <;> rfl
    | error e => cases e <;> simp [hcb]

lemma redirectResolve_ridKeeps (st : SysState) (q : RedirectQuery) :
    ridKeeps st.reservations (redirectResolve st q).2.reservations := by
  unfold redirectResolve
  repeat' split
  all_goals first
    | exact ridKeeps_refl _
    | exact ridKeeps_saveRes _ _

lemma redirect_ridKeeps (st : SysState) (q : RedirectQuery) (now : Int) :
    ridKeeps st.reservations
      (handleDialogGenieRedirect st q now).2.reservations := by
  rw [redirect_state]
  rcases hrr : redirectResolve st q with ⟨opt, st1⟩
  have hres1 : ridKeeps st.reservations st1.reservations := by
    have := redirectResolve_ridKeeps st q
    rwa [hrr] at this
  cases opt with
  | none => exact hres1
  | some r =>
    exact ridKeeps_trans hres1
      (callback_ridKeeps st1 (redirectFinalPaymentId q r) q.statusSuccess now)

lemma sysStep_ridKeeps {st st' : SysState} (h : SysStep st st') :
    ridKeeps st.reservations st'.reservations := by
  cases h with
  | create eventId seatIds holdSeconds newRid now =>
    exact createReservation_ridKeeps st eventId seatIds holdSeconds newRid now
  | tickets rid adults kids assigns =>
    exact updateTickets_ridKeeps st rid adults kids assigns
  | payIntent rid customerPhone txid gatewayOk =>
    exact createPaymentIntent_ridKeeps st rid customerPhone txid gatewayOk
  | confirm rid pid now => exact confirmBooking_ridKeeps st rid pid now
  | cancel rid => exact cancelReservation_ridKeeps st rid
  | sweep now => exact sweep_ridKeeps st now
  | callback paymentId statusSuccess now =>
    exact callback_ridKeeps st paymentId statusSuccess now
  | redirect q now => exact redirect_ridKeeps st q now

lemma sysSteps_ridKeeps {st st' : SysState} (h : SysSteps st st') :
    ridKeeps st.reservations st'.reservations := by
  induction h with
  | refl => exact ridKeeps_refl _
  | tail hsteps hstep ih => exact ridKeeps_trans ih (sysStep_ridKeeps hstep)

/-- C7 amended: the application never deletes a reservation record — after
any sequence of operations every record still exists under its id — while
the store-level TTL purge is state-blind: a record is purge-eligible
exactly when its expiresAt has passed, whatever its status or
numericState (so CART and TIMED_OUT records are purged after expiry, but
so are AT_GATEWAY and PAID ones, as the counterexample shows). -/
theorem c7_amended_no_app_deletion_ttl_state_blind (st st' : SysState)
    (h : SysSteps st st') (r : Reservation) (hr : r ∈ st.reservations) :
    (∃ r' ∈ st'.reservations, r'.rid = r.rid) ∧
    (∀ (x : Reservation) (now : Int), ttlEligible x now = true ↔ x.expiresAt < now) := by
  refine ⟨sysSteps_ridKeeps h r hr, ?_⟩
  intro x now
  simp [ttlEligible]

/-- C7 witness: after a cancel operation the reservation record still
exists under its id. -/
theorem c7_witness :
    (∃ r' ∈ (cancelReservation
        ⟨[⟨"r1", "e1", ["s1"], ReservationStatus.pending_payment, -1, 100, none, none, none⟩],
          [⟨"s1", "e1", SeatState.payment_pending, some "r1", none, none⟩],
          [], [], [], 0, ⟨true, true⟩⟩ "r1").2.reservations,
      r'.rid = (⟨"r1", "e1", ["s1"], ReservationStatus.pending_payment, -1, 100,
        none, none, none⟩ : Reservation).rid) ∧
    (∀ (x : Reservation) (now : Int), ttlEligible x now = true ↔ x.expiresAt < now) :=
  c7_amended_no_app_deletion_ttl_state_blind
    ⟨[⟨"r1", "e1", ["s1"], ReservationStatus.pending_payment, -1, 100, none, none, none⟩],
      [⟨"s1", "e1", SeatState.payment_pending, some "r1", none, none⟩],
      [], [], [], 0, ⟨true, true⟩⟩ _
    (Relation.ReflTransGen.single (SysStep.cancel _ "r1"))
    ⟨"r1", "e1", ["s1"], ReservationStatus.pending_payment, -1, 100, none, none, none⟩
    (by simp)

/-! Monotonicity of the numeric state: no operation writes -1 into an
existing record, so once a reservation has left CART it never returns. -/

lemma findRes_mem {rs : List Reservation} {rid : String} {r : Reservation}
    (h : findRes rs rid = some r) : r ∈ rs ∧ r.rid = rid := by
  refine ⟨List.mem_of_find?_eq_some h, ?_⟩
  have := List.find?_some h
  simpa using this

lemma noRevert_of_nodup (hn : NodupRids rs) : noRevert rs rs := by
  intro x hx hxne y hy hyrid
  rwa [rid_inj hn hy hx hyrid]

lemma noRevert_comp {a b c : List Reservation} (k1 : ridKeeps a b)
    (h1 : noRevert a b) (h2 : noRevert b c) : noRevert a c := by
  intro x hx hxne y hy hyrid
  obtain ⟨y1, hy1, hy1rid⟩ := k1 x hx
  exact h2 y1 hy1 (h1 x hx hxne y1 hy1 hy1rid) y hy (by rw [hyrid, ← hy1rid])

lemma noRevert_saveRes {rs : List Reservation} (hn : NodupRids rs) {r' : Reservation}
    (hns : r'.numericState = -1 → ∀ x ∈ rs, x.rid = r'.rid → x.numericState = -1) :
    noRevert rs (saveRes rs r') := by
  intro x hx hxne y hy hyrid
  obtain ⟨x0, hx0, hfx0⟩ := List.mem_map.mp hy
  by_cases hc : x0.rid = r'.rid
  · have hyr : y = r' := by rw [← hfx0]; simp [hc]
    subst hyr
    intro hym1
    exact hxne (hns hym1 x hx (by rw [hyrid]))
  · have hyx0 : y = x0 := by rw [← hfx0]; simp [hc]
    subst hyx0
    rwa [rid_inj hn hx0 hx hyrid]

lemma noRevert_saveRes_of_mem {rs : List Reservation} (hn : NodupRids rs)
    {r r' : Reservation} (hr : r ∈ rs) (hrid : r'.rid = r.rid)
    (hns : r'.numericState = -1 → r.numericState = -1) :
    noRevert rs (saveRes rs r') := by
  apply noRevert_saveRes hn
  intro h1 x hx hxr
  have hxeq : x = r := rid_inj hn hx hr (by rw [hxr, hrid])
  rw [hxeq]
  exact hns h1

lemma noRevert_saveRes_of_ne {rs : List Reservation} (hn : NodupRids rs)
    {r' : Reservation} (hstate : r'.numericState ≠ -1) :
    noRevert rs (saveRes rs r') :=
  noRevert_saveRes hn (fun h => absurd h hstate)

lemma noRevert_append {rs : List Reservation} (hn : NodupRids rs) {l : List Reservation}
    (hfresh : ∀ y ∈ l, ∀ x ∈ rs, x.rid ≠ y.rid) : noRevert rs (rs ++ l) := by
  intro x hx hxne y hy hyrid
  rcases List.mem_append.mp hy with hy | hy
  · rwa [rid_inj hn hy hx hyrid]
  · exact absurd (by rw [hyrid]) (hfresh y hy x hx)

lemma rids_saveRes (rs : List Reservation) (r : Reservation) :
    (saveRes rs r).map Reservation.rid = rs.map Reservation.rid := by
  unfold saveRes
  rw [List.map_map]
  apply List.map_congr_left
  intro x _
  by_cases hc : x.rid = r.rid
  · simp [hc]
  · simp [hc]

lemma nodupRids_saveRes {rs : List Reservation} (hn : NodupRids rs)
    (r : Reservation) : NodupRids (saveRes rs r) := by
  unfold NodupRids
  rw [rids_saveRes]
  exact hn

/-- The preservation bundle one operation must provide for the
CART-monotonicity invariant. -/
def ResPres (rs rs' : List Reservation) : Prop :=
  noRevert rs rs' ∧ NodupRids rs' ∧ ridKeeps rs rs'

lemma resPres_refl (hn : NodupRids rs) : ResPres rs rs :=
  ⟨noRevert_of_nodup hn, hn, ridKeeps_refl _⟩

lemma resPres_comp {a b c : List Reservation} (h1 : ResPres a b) (h2 : ResPres b c) :
    ResPres a c :=
  ⟨noRevert_comp h1.2.2 h1.1 h2.1, h2.2.1, ridKeeps_trans h1.2.2 h2.2.2⟩

lemma resPres_saveRes_of_mem {rs : List Reservation} (hn : NodupRids rs)
    {r r' : Reservation} (hr : r ∈ rs) (hrid : r'.rid = r.rid)
    (hns : r'.numericState = -1 → r.numericState = -1) :
    ResPres rs (saveRes rs r') :=
  ⟨noRevert_saveRes_of_mem hn hr hrid hns, nodupRids_saveRes hn r', ridKeeps_saveRes _ _⟩

lemma resPres_saveRes_of_ne {rs : List Reservation} (hn : NodupRids rs)
    {r' : Reservation} (hstate : r'.numericState ≠ -1) :
    ResPres rs (saveRes rs r') :=
  ⟨noRevert_saveRes_of_ne hn hstate, nodupRids_saveRes hn r', ridKeeps_saveRes _ _⟩

lemma confirmIdempotent_pres {st : SysState} (hn : NodupRids st.reservations)
    {r : Reservation} (hr : r ∈ st.reservations) (rid : String) (pid : Option String)
    (existing : List Booking) :
    ResPres st.reservations (confirmIdempotent st r rid pid existing).2.reservations := by
  unfold confirmIdempotent
  dsimp only
  split
  · exact resPres_saveRes_of_mem hn hr rfl (fun h => h)
  · exact resPres_saveRes_of_mem hn hr rfl (fun h => h)

lemma confirmPersist_pres {st : SysState} (hn : NodupRids st.reservations)
    {r : Reservation} (hr : r ∈ st.reservations) (rid : String) (pid : Option String)
    (seats' : List Seat) (existing : List Booking) :
    ResPres st.reservations (confirmPersist st r rid pid seats' existing).2.reservations := by
  unfold confirmPersist
  dsimp only
  repeat' split
  all_goals exact resPres_saveRes_of_mem hn hr rfl (fun h => h)

lemma confirmMain_pres {st : SysState} (hn : NodupRids st.reservations)
    {r : Reservation} (hr : r ∈ st.reservations) (rid : String) (pid : Option String)
    (now : Int) (existing : List Booking) :
    ResPres st.reservations (confirmMain st r rid pid now existing).2.reservations := by
  unfold confirmMain
  dsimp only
  repeat' split
  all_goals first
    | exact resPres_refl hn
    | exact resPres_saveRes_of_mem hn hr rfl (fun h => h)
    | exact confirmPersist_pres hn hr _ _ _ _

lemma confirmBooking_pres {st : SysState} (hn : NodupRids st.reservations)
    (rid : String) (pid : Option String) (now : Int) :
    ResPres st.reservations (confirmBooking st rid pid now).2.reservations := by
  unfold confirmBooking
  cases hfind : findRes st.reservations rid with
  | none => exact resPres_refl hn
  | some r =>
    have hr := (findRes_mem hfind).1
    dsimp only
    split
    · exact confirmIdempotent_pres hn hr _ _ _
    · exact confirmMain_pres hn hr _ _ _ _

lemma createReservation_pres {st : SysState} (hn : NodupRids st.reservations)
    (eventId : String) (seatIds : List String) (holdSeconds : Int) (newRid : String)
    (now : Int) :
    ResPres st.reservations
      (createReservation st eventId seatIds holdSeconds newRid now).2.reservations := by
  unfold createReservation
  dsimp only
  repeat' split
  all_goals first
    | exact resPres_refl hn
    | skip
  rename_i hfound
  have hfresh : ∀ x ∈ st.reservations, x.rid ≠ newRid := by
    intro x hx he
    apply hfound
    have : findRes st.reservations newRid ≠ none := by
      unfold findRes
      intro hnone
      exact absurd he (by simpa using List.find?_eq_none.mp hnone x hx)
    simpa [Option.isSome_iff_ne_none] using this
  refine ⟨noRevert_append hn ?_, ?_, ridKeeps_append _ _⟩
  · intro y hy x hx
    simp only [List.mem_singleton] at hy
    subst hy
    exact hfresh x hx
  · unfold NodupRids
    rw [List.map_append]
    simp only [List.map_cons, List.map_nil]
    apply List.Nodup.append hn (List.nodup_singleton _)
    intro a ha hb
    simp only [List.mem_singleton] at hb
    obtain ⟨x, hx, hax⟩ := List.mem_map.mp ha
    exact hfresh x hx (by rw [hax, hb])

lemma updateTickets_pres {st : SysState} (hn : NodupRids st.reservations)
    (rid : String) (adults kids : Nat) (assigns : List SeatAssignment) :
    ResPres st.reservations (updateTickets st rid adults kids assigns).2.reservations := by
  unfold updateTickets
  cases hfind : findRes st.reservations rid with
  | none => exact resPres_refl hn
  | some r =>
    have hr := (findRes_mem hfind).1
    dsimp only
    repeat' split
    all_goals first
      | exact resPres_refl hn
      | exact resPres_saveRes_of_mem hn hr rfl (fun h => h)

lemma cancelReservation_pres {st : SysState} (hn : NodupRids st.reservations)
    (rid : String) :
    ResPres st.reservations (cancelReservation st rid).2.reservations := by
  unfold cancelReservation
  cases hfind : findRes st.reservations rid with
  | none => exact resPres_refl hn
  | some r =>
    exact resPres_saveRes_of_mem hn (findRes_mem hfind).1 rfl (fun h => h)

lemma createPaymentIntent_pres {st : SysState} (hn : NodupRids st.reservations)
    (rid : String) (customerPhone : Option String) (txid : String) (gatewayOk : Bool) :
    ResPres st.reservations
      (createPaymentIntent st rid customerPhone txid gatewayOk).2.reservations := by
  unfold createPaymentIntent
  cases hfind : findRes st.reservations rid with
  | none => exact resPres_refl hn
  | some r =>
    have hr := (findRes_mem hfind).1
    dsimp only
    split
    · exact resPres_refl hn
    split
    · exact resPres_refl hn
    rcases customerPhone with _ | p <;>
      [(have h1 : ResPres st.reservations (saveRes st.reservations r) :=
          resPres_saveRes_of_mem hn hr rfl (fun h => h));
       (have h1 : ResPres st.reservations
            (saveRes st.reservations { r with phoneNumber := some p }) :=
          resPres_saveRes_of_mem hn hr rfl (fun h => h))] <;>
      dsimp only <;>
      split <;>
      first
        | exact h1
        | exact resPres_comp h1
            (resPres_saveRes_of_ne h1.2.1 (by simp))

lemma scalar_res_ns (ls : List Reservation) (x : Reservation) :
    (ls.foldl (fun y l => sweepResF l y) x).numericState = x.numericState ∨
    (ls.foldl (fun y l => sweepResF l y) x).numericState = -3 := by
  induction ls generalizing x with
  | nil => left; rfl
  | cons l tl ih =>
    rw [List.foldl_cons]
    rcases ih (sweepResF l x) with h | h
    · rw [h]
      unfold sweepResF
      by_cases hc : x.rid = l.rid
      · right; simp [hc, timedOut]
      · left; simp [hc]
    · right; exact h

lemma sweep_pres {st : SysState} (hn : NodupRids st.reservations) (now : Int) :
    ResPres st.reservations (checkExpiredReservations st now).reservations := by
  have hmap : (checkExpiredReservations st now).reservations =
      st.reservations.map (fun x =>
        (st.reservations.filter (isExpiredCart now)).foldl (fun y l => sweepResF l y) x) := by
    unfold checkExpiredReservations
    rw [sweep_reservations_eq, foldl_map_comm]
  rw [hmap]
  refine ⟨?_, ?_, ridKeeps_map (fun x _ => scalar_res_rid _ x)⟩
  · intro x hx hxne y hy hyrid
    obtain ⟨x0, hx0, hfx0⟩ := List.mem_map.mp hy
    have hx0rid : x0.rid = x.rid := by
      rw [← hyrid, ← hfx0]
      exact (scalar_res_rid _ x0).symm
    have hx0x : x0 = x := rid_inj hn hx0 hx hx0rid
    subst hx0x
    rcases scalar_res_ns (st.reservations.filter (isExpiredCart now)) x0 with h | h
    · rw [← hfx0]
      rw [h]
      exact hxne
    · rw [← hfx0, h]
      decide
  · unfold NodupRids
    rw [List.map_map]
    have : (Reservation.rid ∘ fun x =>
        (st.reservations.filter (isExpiredCart now)).foldl (fun y l => sweepResF l y) x) =
        Reservation.rid := by
      funext x
      exact scalar_res_rid _ x
    rw [this]
    exact hn

lemma callback_pres {st : SysState} (hn : NodupRids st.reservations)
    (paymentId : String) (statusSuccess : Bool) (now : Int) :
    ResPres st.reservations
      (handleDialogGenieCallback st paymentId statusSuccess now).2.reservations := by
  unfold handleDialogGenieCallback
  cases hlk : callbackLookup st paymentId with
  | none => exact resPres_refl hn
  | some r0 =>
    cases statusSuccess with
    | false => exact resPres_refl hn
    | true =>
      dsimp only
      have h1 : ResPres st.reservations
          (saveRes st.reservations { r0 with numericState := 1 }) :=
        resPres_saveRes_of_ne hn (by simp)
      rcases hcb : confirmBooking
          { st with reservations := saveRes st.reservations { r0 with numericState := 1 } }
          r0.rid (some paymentId) now with ⟨res, st2⟩
      have h2 : ResPres (saveRes st.reservations { r0 with numericState := 1 })
          st2.reservations := by
        have := @confirmBooking_pres
          { st with reservations := saveRes st.reservations { r0 with numericState := 1 } }
          (nodupRids_saveRes hn _) r0.rid (some paymentId) now
        rwa [hcb] at this
      have h12 := resPres_comp h1 h2
      cases res with
      | ok v => exact h12
      | error e =>
        dsimp only
        by_cases hb : st2.bookings.filter (fun b => b.reservationId = r0.rid) ≠ []
        · rw [if_pos hb]
          rcases hcb2 : confirmBooking st2 r0.rid (some paymentId) now with ⟨res2, st3⟩
          have h3 : ResPres st2.reservations st3.reservations := by
            have := @confirmBooking_pres st2 h12.2.1 r0.rid (some paymentId) now
            rwa [hcb2] at this
          exact resPres_comp h12 h3
        · rw [if_neg hb]
          exact h12

lemma redirectFound1_mem {st : SysState} {q : RedirectQuery} {r : Reservation}
    (h : redirectFound1 st q = some r) : r ∈ st.reservations := by
  unfold redirectFound1 at h
  rcases hl : q.localId with _ | l
  · rw [hl] at h; cases h
  · rw [hl] at h
    exact (findRes_mem h).1

lemma redirectStamp_rid (r : Reservation) (pid : Option String) :
    (redirectStamp r pid).rid = r.rid := by
  unfold redirectStamp
  rcases pid with _ | p
  · rfl
  · dsimp only
    split <;> rfl

lemma redirectStamp_ns (r : Reservation) (pid : Option String) :
    (redirectStamp r pid).numericState = r.numericState := by
  unfold redirectStamp
  rcases pid with _ | p
  · rfl
  · dsimp only
    split <;> rfl

lemma redirectResolve_pres {st : SysState} (hn : NodupRids st.reservations)
    (q : RedirectQuery) :
    ResPres st.reservations (redirectResolve st q).2.reservations := by
  unfold redirectResolve
  cases hf : redirectFound1 st q with
  | none =>
    rcases hp : redirectPid q with _ | p <;> exact resPres_refl hn
  | some r =>
    exact resPres_saveRes_of_mem hn (redirectFound1_mem hf)
      (redirectStamp_rid r (redirectPid q))
      (fun h => by rwa [redirectStamp_ns r (redirectPid q)] at h)

lemma redirect_pres {st : SysState} (hn : NodupRids st.reservations)
    (q : RedirectQuery) (now : Int) :
    ResPres st.reservations
      (handleDialogGenieRedirect st q now).2.reservations := by
  rw [redirect_state]
  rcases hrr : redirectResolve st q with ⟨opt, st1⟩
  have h1 : ResPres st.reservations st1.reservations := by
    have := redirectResolve_pres hn q
    rwa [hrr] at this
  cases opt with
  | none => exact h1
  | some r =>
    exact resPres_comp h1
      (callback_pres h1.2.1 (redirectFinalPaymentId q r) q.statusSuccess now)

lemma sysStep_pres {st st' : SysState} (h : SysStep st st')
    (hn : NodupRids st.reservations) : ResPres st.reservations st'.reservations := by
  cases h with
  | create eventId seatIds holdSeconds newRid now =>
    exact createReservation_pres hn eventId seatIds holdSeconds newRid now
  | tickets rid adults kids assigns => exact updateTickets_pres hn rid adults kids assigns
  | payIntent rid customerPhone txid gatewayOk =>
    exact createPaymentIntent_pres hn rid customerPhone txid gatewayOk
  | confirm rid pid now => exact confirmBooking_pres hn rid pid now
  | cancel rid => exact cancelReservation_pres hn rid
  | sweep now => exact sweep_pres hn now
  | callback paymentId statusSuccess now =>
    exact callback_pres hn paymentId statusSuccess now
  | redirect q now => exact redirect_pres hn q now

/-- C6: state monotonicity. Over any sequence of system operations
(create, updateTickets, createPaymentIntent, confirm, cancel, sweep,
payment callback, payment redirect), a reservation whose numeric state has
left CART (-1) — for AT_GATEWAY (-2), TIMED_OUT (-3) or PAID (1) — is
never set back to -1: every record that still carries its id keeps a
numeric state different from -1. -/
theorem c6_state_never_returns_to_cart (st st' : SysState) (h : SysSteps st st')
    (hn : NodupRids st.reservations)
    (r : Reservation) (hr : r ∈ st.reservations) (hne : r.numericState ≠ -1)
    (r' : Reservation) (hr' : r' ∈ st'.reservations) (hrid : r'.rid = r.rid) :
    r'.numericState ≠ -1 := by
  induction h using Relation.ReflTransGen.head_induction_on generalizing r with
  | refl =>
    intro hm1
    have hn' : NodupRids st'.reservations := hn
    rw [rid_inj hn' hr' hr hrid] at hm1
    exact hne hm1
  | head hstep hrest ih =>
    rename_i a c
    have hpres := sysStep_pres hstep hn
    obtain ⟨y, hy, hyrid⟩ := hpres.2.2 r hr
    exact ih hpres.2.1 y hy (hpres.1 r hr hne y hy hyrid) (by rw [hrid, ← hyrid])

/-- C6 witness: after a cancel operation on an AT_GATEWAY reservation the
surviving record still has numeric state -2, not -1. -/
theorem c6_witness :
    (⟨"r1", "e1", ["s1"], ReservationStatus.cancelled, -2, 50,
       none, none, none⟩ : Reservation).numericState ≠ -1 :=
  c6_state_never_returns_to_cart
    ⟨[⟨"r1", "e1", ["s1"], ReservationStatus.pending_payment, -2, 50, none, none, none⟩],
      [], [], [], [], 0, ⟨true, true⟩⟩
    (cancelReservation
      ⟨[⟨"r1", "e1", ["s1"], ReservationStatus.pending_payment, -2, 50, none, none, none⟩],
        [], [], [], [], 0, ⟨true, true⟩⟩ "r1").2
    (Relation.ReflTransGen.single (SysStep.cancel _ "r1"))
    (by simp [NodupRids])
    ⟨"r1", "e1", ["s1"], ReservationStatus.pending_payment, -2, 50, none, none, none⟩
    (by simp) (by decide)
    ⟨"r1", "e1", ["s1"], ReservationStatus.cancelled, -2, 50, none, none, none⟩
    (by decide) rfl

/-! ## C8 — payment-callback reconciliation lookup chain -/

/-- C8 counterexample: the claim says a not-found error is reported only
when all applicable lookups fail. Here the redirect carries the
reservation id r1 (lookup (1) succeeds: the reservation exists) together
with a payment id pay2 different from the stored pay1; the handler then
delegates by payment id alone, both payment-id lookups miss, and the
outcome is the not-found error page even though lookup (1) succeeded. -/
theorem c8_notFound_despite_reservation_id_hit :
    findRes
      [⟨"r1", "e1", ["s1"], ReservationStatus.pending_payment, -2, 100,
         some ⟨1, 0, 0, 1⟩, some "pay1", some "07"⟩] "r1" =
      some ⟨"r1", "e1", ["s1"], ReservationStatus.pending_payment, -2, 100,
         some ⟨1, 0, 0, 1⟩, some "pay1", some "07"⟩ ∧
    (handleDialogGenieRedirect
      ⟨[⟨"r1", "e1", ["s1"], ReservationStatus.pending_payment, -2, 100,
          some ⟨1, 0, 0, 1⟩, some "pay1", some "07"⟩],
        [⟨"s1", "e1", SeatState.payment_pending, some "r1", none, none⟩],
        [], [⟨"r1", some "pay1"⟩], [⟨"e1", 1, [], none, true, none, none⟩], 0, ⟨true, true⟩⟩
      ⟨some "pay2", some "r1", true⟩ 50).1 = RedirectOutcome.notFoundError :=
  ⟨rfl, rfl⟩

lemma callback_notFound_iff (st : SysState) (p : String) (sSucc : Bool) (now : Int) :
    (handleDialogGenieCallback st p sSucc now).1 = Except.error CbErr.notFound ↔
      callbackLookup st p = none := by
  unfold handleDialogGenieCallback
  cases hlk : callbackLookup st p with
  | none => simp
  | some r0 =>
    simp only [Option.some.injEq]
    constructor
    · intro h
      exfalso
      cases sSucc with
      | false => simp at h
      | true =>
        rcases hcb : confirmBooking
            { st with reservations := saveRes st.reservations { r0 with numericState := 1 } }
            r0.rid (some p) now with ⟨res, st2⟩
        rw [hcb] at h
        cases res with
        | ok v => simp at h
        | error e => simp at h
    · intro h
      simp at h

lemma callbackLookup_none_iff (st : SysState) (p : String) :
    callbackLookup st p = none ↔
      (st.reservations.find? (fun r => r.paymentIntentId = some p) = none ∧
       ∀ b, st.backups.find? (fun b => b.paymentIntentId = some p) = some b →
         findRes st.reservations b.rid = none) := by
  unfold callbackLookup
  cases h1 : st.reservations.find? (fun r => r.paymentIntentId = some p) with
  | some r => simp
  | none =>
    cases h2 : st.backups.find? (fun b => b.paymentIntentId = some p) with
    | none => simp
    | some b =>
      constructor
      · intro h
        refine ⟨rfl, ?_⟩
        intro b' hb'
        injection hb' with hb'
        rwa [← hb']
      · intro h
        exact h.2 b rfl

lemma redirectResolve_none_iff (st : SysState) (q : RedirectQuery) :
    (redirectResolve st q).1 = none ↔
      (redirectFound1 st q = none ∧
       ∀ p, redirectPid q = some p →
         st.reservations.find? (fun r => r.paymentIntentId = some p) = none) := by
  unfold redirectResolve
  cases hf : redirectFound1 st q with
  | some r => simp
  | none =>
    cases hp : redirectPid q with
    | none => simp
    | some p =>
      constructor
      · intro h
        refine ⟨rfl, ?_⟩
        intro p' hp'
        injection hp' with hp'
        rw [← hp']
        simpa using h
      · intro h
        simpa using h.2 p rfl

lemma redirect_notFound_iff (st : SysState) (q : RedirectQuery) (now : Int) :
    (handleDialogGenieRedirect st q now).1 = RedirectOutcome.notFoundError ↔
      ((redirectResolve st q).1 = none ∨
       ∃ r, (redirectResolve st q).1 = some r ∧
         callbackLookup (redirectResolve st q).2 (redirectFinalPaymentId q r) = none) := by
  unfold handleDialogGenieRedirect
  rcases hrr : redirectResolve st q with ⟨opt, st1⟩
  cases opt with
  | none => simp
  | some r =>
    dsimp only
    rcases hcb : handleDialogGenieCallback st1 (redirectFinalPaymentId q r)
        q.statusSuccess now with ⟨res, st2⟩
    have hiff := callback_notFound_iff st1 (redirectFinalPaymentId q r) q.statusSuccess now
    rw [hcb] at hiff
    simp only at hiff
    cases res with
    | ok v =>
      constructor
      · intro h
        exfalso
        cases hv : v.success with
        | true => simp [hv] at h
        | false => simp [hv] at h
      · intro h
        exfalso
        rcases h with h | ⟨r', hr', hnone⟩
        · cases h
        · injection hr' with hr'
          subst hr'
          exact absurd (hiff.mpr hnone) (by simp)
    | error e =>
      cases e with
      | notFound =>
        simp only []
        constructor
        · intro _
          exact Or.inr ⟨r, rfl, hiff.mp rfl⟩
        · intro _
          trivial
      | confirmFailed e' =>
        constructor
        · intro h
          cases h
        · intro h
          exfalso
          rcases h with h | ⟨r', hr', hnone⟩
          · cases h
          · injection hr' with hr'
            subst hr'
            exact absurd (hiff.mpr hnone) (by simp)

/-- C8 amended: the reconciliation lookups, per entry point. (1) The
webhook callback handler resolves only by payment id — primary store
first, then the backup resolved back to the primary — and reports
not-found exactly when both miss (conjuncts 1 and 2). (2) The redirect
handler resolves by reservation id first and then by payment id against
the primary store; its resolution misses exactly when both of those miss
(conjunct 3). (3) After a successful resolution the redirect re-resolves
through the payment-id-only callback handler, so the redirect shows the
not-found error exactly when its own resolution missed or the delegated
payment-id lookup missed — the latter can happen even though the
reservation-id lookup succeeded, as the counterexample shows (conjunct 4). -/
theorem c8_amended_lookup_chain :
    (∀ (st : SysState) (p : String) (sSucc : Bool) (now : Int),
       (handleDialogGenieCallback st p sSucc now).1 = Except.error CbErr.notFound ↔
         callbackLookup st p = none) ∧
    (∀ (st : SysState) (p : String),
       callbackLookup st p = none ↔
         (st.reservations.find? (fun r => r.paymentIntentId = some p) = none ∧
          ∀ b, st.backups.find? (fun b => b.paymentIntentId = some p) = some b →
            findRes st.reservations b.rid = none)) ∧
    (∀ (st : SysState) (q : RedirectQuery),
       (redirectResolve st q).1 = none ↔
         (redirectFound1 st q = none ∧
          ∀ p, redirectPid q = some p →
            st.reservations.find? (fun r => r.paymentIntentId = some p) = none)) ∧
    (∀ (st : SysState) (q : RedirectQuery) (now : Int),
       (handleDialogGenieRedirect st q now).1 = RedirectOutcome.notFoundError ↔
         ((redirectResolve st q).1 = none ∨
          ∃ r, (redirectResolve st q).1 = some r ∧
            callbackLookup (redirectResolve st q).2 (redirectFinalPaymentId q r) = none)) :=
  ⟨callback_notFound_iff, callbackLookup_none_iff, redirectResolve_none_iff,
   redirect_notFound_iff⟩

/-- C8 witness: the first conjunct applied to a store with no matching
payment id: the webhook callback reports not-found. -/
theorem c8_witness :
    (handleDialogGenieCallback
      ⟨[⟨"r1", "e1", ["s1"], ReservationStatus.pending_payment, -2, 100,
          some ⟨1, 0, 0, 1⟩, some "pay1", some "07"⟩],
        [], [], [⟨"r1", some "pay1"⟩], [], 0, ⟨true, true⟩⟩
      "pay2" true 50).1 = Except.error CbErr.notFound :=
  (c8_amended_lookup_chain.1
    ⟨[⟨"r1", "e1", ["s1"], ReservationStatus.pending_payment, -2, 100,
        some ⟨1, 0, 0, 1⟩, some "pay1", some "07"⟩],
      [], [], [⟨"r1", some "pay1"⟩], [], 0, ⟨true, true⟩⟩
    "pay2" true 50).mpr rfl

/-! ## C9 — the per-seat pricing algorithm -/

lemma find?_append_cases {α : Type} (p : α → Bool) (l₁ l₂ : List α) :
    (l₁ ++ l₂).find? p =
      match l₁.find? p with
      | some x => some x
      | none => l₂.find? p := by
  induction l₁ with
  | nil => simp
  | cons a tl ih =>
    by_cases h : p a
    · simp [List.find?_cons, h]
    · simp only [List.cons_append, List.find?_cons, h]
      simpa [h] using ih

/-- With pairwise-distinct names, searching the reversed tier list (the
last-wins Map of the source) agrees with a plain first search. -/
lemma find_rev_nodup {l : List TicketType}
    (hn : (l.map TicketType.name).Nodup) (t : String) :
    l.reverse.find? (fun tt => tt.name = t) = l.find? (fun tt => tt.name = t) := by
  induction l with
  | nil => rfl
  | cons a tl ih =>
    rw [List.map_cons] at hn
    have hn' := List.nodup_cons.mp hn
    rw [List.reverse_cons, find?_append_cases]
    by_cases ha : a.name = t
    · have htl : tl.reverse.find? (fun tt => tt.name = t) = none := by
        apply List.find?_eq_none.mpr
        intro x hx
        simp only [decide_eq_true_eq]
        intro hxt
        exact hn'.1 (by
          rw [ha, ← hxt]
          exact List.mem_map_of_mem TicketType.name (List.mem_reverse.mp hx))
      rw [htl]
      simp [List.find?_cons, ha]
    · rw [ih hn'.2]
      cases hf : tl.find? (fun tt => tt.name = t) with
      | some x => simp [List.find?_cons, ha, hf]
      | none => simp [List.find?_cons, ha, hf]

/-- C9: on well-formed data — tier names nonempty, trimmed and pairwise
distinct, seat-assigned tier names trimmed, override prices positive —
the computed summary of `calculateAmountWithSeatAssignments` is exactly
the spec-side summary: each seat priced by (a) the adult/child price of
its assigned tier when that tier exists on the event, else (b) its own
override price, else (c) the event's default price; subtotal the sum,
commission a percentage of the subtotal or the flat value per seat, and
total = subtotal + commission + taxes. -/
theorem c9_pricing_follows_priority_order (seats : List Seat) (event : Event)
    (assigns : List SeatAssignment)
    (hT : ∀ tt ∈ event.ticketTypes, tt.name ≠ "" ∧ jsTrim tt.name = tt.name)
    (hN : (event.ticketTypes.map TicketType.name).Nodup)
    (hS : ∀ s ∈ seats, ∀ t, s.ticketType = some t → jsTrim t = t)
    (hB : ∀ s ∈ seats, ∀ p, s.basePrice = some p → 0 < p) :
    calculateAmountWithSeatAssignments seats event assigns =
      specPriceSummary seats event assigns := by
  have hfilter : event.ticketTypes.filter (fun tt => tt.name ≠ "") = event.ticketTypes := by
    apply List.filter_eq_self.mpr
    intro a ha
    simp [(hT a ha).1]
  have hlook : ∀ t, ttLookup event.ticketTypes t =
      event.ticketTypes.find? (fun tt => tt.name = t) := by
    intro t
    unfold ttLookup
    rw [hfilter, find_rev_nodup hN]
  have hpt : ∀ s ∈ seats,
      calcSeatPriceAssigned event.ticketTypes event.defaultPrice assigns s =
        specSeatUnitPrice event assigns s := by
    intro s hs
    have hfb : fallbackPrice event.defaultPrice s =
        (match s.basePrice with
         | some p => p
         | none => event.defaultPrice) := by
      unfold fallbackPrice
      rcases hbp : s.basePrice with _ | pr
      · rfl
      · simp [hB s hs pr hbp]
    unfold calcSeatPriceAssigned specSeatUnitPrice seatEffectiveTicketType
    rcases hst : s.ticketType with _ | t
    · exact hfb
    · have htrim : jsTrim t = t := hS s hs t hst
      dsimp only
      rw [htrim]
      by_cases ht0 : t ≠ ""
      · rw [if_pos ht0]
        dsimp only
        rw [hlook t]
        cases hf : event.ticketTypes.find? (fun tt => tt.name = t) with
        | some tier => rfl
        | none => exact hfb
      · rw [if_neg ht0]
        dsimp only
        have hnone : event.ticketTypes.find? (fun tt => tt.name = t) = none := by
          apply List.find?_eq_none.mpr
          intro x hx
          simp only [decide_eq_true_eq]
          intro hxt
          rw [not_not] at ht0
          exact (hT x hx).1 (by rw [hxt, ht0])
        rw [hnone]
        exact hfb
  unfold calculateAmountWithSeatAssignments specPriceSummary
  rw [List.map_congr_left hpt]
  rfl

/-- C9 witness: a three-seat event with a VIP tier, one child assignment,
one override price and one default-priced seat; the computed summary is
the spec summary. -/
theorem c9_witness :
    calculateAmountWithSeatAssignments
      [⟨"s1", "e1", SeatState.available, none, some "VIP", none⟩,
       ⟨"s2", "e1", SeatState.available, none, none, some 20⟩,
       ⟨"s3", "e1", SeatState.available, none, none, none⟩]
      ⟨"e1", 5, [⟨"VIP", 30, 15⟩], some ⟨CommissionType.percentage, 10⟩, true, none, none⟩
      [⟨"s1", AgeClass.child⟩] =
    specPriceSummary
      [⟨"s1", "e1", SeatState.available, none, some "VIP", none⟩,
       ⟨"s2", "e1", SeatState.available, none, none, some 20⟩,
       ⟨"s3", "e1", SeatState.available, none, none, none⟩]
      ⟨"e1", 5, [⟨"VIP", 30, 15⟩], some ⟨CommissionType.percentage, 10⟩, true, none, none⟩
      [⟨"s1", AgeClass.child⟩] :=
  c9_pricing_follows_priority_order _ _ _
    (by decide) (by decide) (by decide) (by decide)

/-! ## C3 — all-or-nothing seat locking -/

lemma lockSeatF_id {sid rid : String} {s : Seat}
    (h : ¬(s.sid = sid ∧ s.state = SeatState.available)) :
    lockSeatF sid rid s = s := by
  simp [lockSeatF, h]

lemma lockLoop_fst (seats : List Seat) (rid : String) (ids : List String) :
    (lockLoop seats rid ids).1 =
      seats.map (fun s => ids.foldl (fun x sid => lockSeatF sid rid x) s) := by
  induction ids generalizing seats with
  | nil => simp [lockLoop]
  | cons sid rest ih =>
    have hbranch : (lockLoop seats rid (sid :: rest)).1 =
        (lockLoop ((lockOne seats sid rid).2) rid rest).1 := by
      rw [lockLoop]
      split <;> rfl
    have hone : (lockOne seats sid rid).2 = seats.map (lockSeatF sid rid) := rfl
    rw [hbranch, hone, ih, List.map_map]
    apply List.map_congr_left
    intro s _
    rfl

lemma scalarLock_skip {ids : List String} {rid : String} {s : Seat}
    (h : s.state ≠ SeatState.available) :
    ids.foldl (fun x sid => lockSeatF sid rid x) s = s := by
  induction ids with
  | nil => rfl
  | cons sid rest ih =>
    rw [List.foldl_cons, lockSeatF_id (fun hc => h hc.2)]
    exact ih

lemma scalarLock_cases (ids : List String) (rid : String) (s : Seat) :
    ids.foldl (fun x sid => lockSeatF sid rid x) s = s ∨
    (s.state = SeatState.available ∧ s.sid ∈ ids ∧
     ids.foldl (fun x sid => lockSeatF sid rid x) s =
       { s with state := SeatState.payment_pending, pendingReservationId := some rid }) := by
  induction ids with
  | nil => left; rfl
  | cons sid rest ih =>
    rw [List.foldl_cons]
    by_cases hc : s.sid = sid ∧ s.state = SeatState.available
    · right
      refine ⟨hc.2, by simp [hc.1], ?_⟩
      have hstep : lockSeatF sid rid s =
          { s with state := SeatState.payment_pending, pendingReservationId := some rid } := by
        simp [lockSeatF, hc]
      rw [hstep]
      exact scalarLock_skip (by simp)
    · rw [lockSeatF_id hc]
      rcases ih with h | ⟨h1, h2, h3⟩
      · left; exact h
      · right; exact ⟨h1, List.mem_cons_of_mem _ h2, h3⟩

lemma locked_of_available {seats : List Seat} {rid : String} {ids : List String}
    {s : Seat} (hs : s ∈ seats) (hav : s.state = SeatState.available)
    (hmem : s.sid ∈ ids) :
    s.sid ∈ (lockLoop seats rid ids).2.1 := by
  induction ids generalizing seats s with
  | nil => cases hmem
  | cons sid rest ih =>
    unfold lockLoop
    dsimp only
    by_cases hc : s.sid = sid
    · have hcount : ¬((lockOne seats sid rid).1 = 0) := by
        intro h0
        have := List.countP_eq_zero.mp h0 s hs
        simp [hc, hav] at this
      rw [if_neg hcount]
      simp [hc]
    · have hsf : lockSeatF sid rid s = s := lockSeatF_id (fun hcc => hc hcc.1)
      have hs' : s ∈ (lockOne seats sid rid).2 := by
        have := List.mem_map_of_mem (lockSeatF sid rid) hs
        rwa [hsf] at this
      have hmem' : s.sid ∈ rest := by
        rcases List.mem_cons.mp hmem with h | h
        · exact absurd h hc
        · exact h
      have htail := ih hs' hav hmem'
      split
      · exact htail
      · exact List.mem_cons_of_mem _ htail

lemma locked_sound {seats : List Seat} {rid : String} {ids : List String}
    {sid' : String} (h : sid' ∈ (lockLoop seats rid ids).2.1) :
    ∃ s ∈ seats, s.sid = sid' ∧ s.state = SeatState.available := by
  induction ids generalizing seats with
  | nil => cases h
  | cons sid rest ih =>
    have hpull : ∀ s' ∈ (lockOne seats sid rid).2,
        s'.state = SeatState.available → s' ∈ seats := by
      intro s' hs' hav'
      obtain ⟨s0, hs0, hfs0⟩ := List.mem_map.mp hs'
      by_cases hc : s0.sid = sid ∧ s0.state = SeatState.available
      · exfalso
        rw [← hfs0] at hav'
        simp [lockSeatF, hc] at hav'
      · rwa [← hfs0, lockSeatF_id hc]
    unfold lockLoop at h
    dsimp only at h
    by_cases h0 : (lockOne seats sid rid).1 = 0
    · rw [if_pos h0] at h
      obtain ⟨s', hs', hsid', hav'⟩ := ih h
      exact ⟨s', hpull s' hs' hav', hsid', hav'⟩
    · rw [if_neg h0] at h
      rcases List.mem_cons.mp h with h | h
      · have hpos : 0 < (lockOne seats sid rid).1 := Nat.pos_of_ne_zero h0
        obtain ⟨s, hs, hp⟩ := List.countP_pos.mp hpos
        simp only [decide_eq_true_eq] at hp
        exact ⟨s, hs, by rw [hp.1, h], hp.2⟩
      · obtain ⟨s', hs', hsid', hav'⟩ := ih h
        exact ⟨s', hpull s' hs' hav', hsid', hav'⟩

lemma any_congr_aux {l : List Seat} {p q : Seat → Bool} (h : ∀ s ∈ l, p s = q s) :
    l.any p = l.any q := by
  induction l with
  | nil => rfl
  | cons a t ih =>
    simp only [List.any_cons]
    rw [h a (List.mem_cons_self a t), ih (fun s hs => h s (List.mem_cons_of_mem a hs))]

lemma lockOne_any {seats : List Seat} {rid sid : String} {id : String}
    (hne : id ≠ sid) :
    ((lockOne seats sid rid).2.any
      (fun s => s.sid = id ∧ s.state = SeatState.available)) =
    (seats.any (fun s => s.sid = id ∧ s.state = SeatState.available)) := by
  unfold lockOne
  dsimp only
  rw [List.any_map]
  apply any_congr_aux
  intro s _
  by_cases hc : s.sid = sid ∧ s.state = SeatState.available
  · have hlock : lockSeatF sid rid s =
        { s with state := SeatState.payment_pending, pendingReservationId := some rid } := by
      simp [lockSeatF, hc]
    simp only [Function.comp_apply, hlock]
    simp [hc.1]
    intro h
    exact absurd h.symm hne
  · simp only [Function.comp_apply, lockSeatF_id hc]

lemma lockOne_zero_iff {seats : List Seat} {rid sid : String} :
    (lockOne seats sid rid).1 = 0 ↔
    (seats.any (fun s => s.sid = sid ∧ s.state = SeatState.available)) = false := by
  unfold lockOne
  dsimp only
  constructor
  · intro h0
    rw [List.any_eq_false]
    intro s hs
    have := List.countP_eq_zero.mp h0 s hs
    simpa using this
  · intro hf
    rw [List.countP_eq_zero]
    intro s hs
    have := (List.any_eq_false.mp hf) s hs
    simpa using this

lemma failed_characterisation {seats : List Seat} {rid : String} (ids : List String)
    (hnd : ids.Nodup) :
    (lockLoop seats rid ids).2.2 =
      ids.filter (fun id =>
        !(seats.any (fun s => s.sid = id ∧ s.state = SeatState.available))) := by
  induction ids generalizing seats with
  | nil => rfl
  | cons sid rest ih =>
    have hnd' := List.nodup_cons.mp hnd
    have hrest : (lockLoop (lockOne seats sid rid).2 rid rest).2.2 =
        rest.filter (fun id =>
          !(seats.any (fun s => s.sid = id ∧ s.state = SeatState.available))) := by
      rw [ih hnd'.2]
      apply List.filter_congr
      intro id hid
      have hne : id ≠ sid := fun he => hnd'.1 (he ▸ hid)
      rw [lockOne_any hne]
    unfold lockLoop
    dsimp only
    by_cases h0 : (lockOne seats sid rid).1 = 0
    · rw [if_pos h0]
      have hav := lockOne_zero_iff.mp h0
      have hcond : (!(seats.any (fun s => s.sid = sid ∧ s.state = SeatState.available))) = true := by
        rw [hav]
        rfl
      rw [List.filter_cons, if_pos hcond, ← hrest]
    · rw [if_neg h0]
      have hav : (seats.any (fun s => s.sid = sid ∧ s.state = SeatState.available)) = true := by
        rcases Bool.eq_false_or_eq_true
            (seats.any (fun s => s.sid = sid ∧ s.state = SeatState.available)) with h | h
        · exact h
        · exact absurd (lockOne_zero_iff.mpr h) h0
      have hcond : ¬((!(seats.any (fun s => s.sid = sid ∧ s.state = SeatState.available))) = true) := by
        rw [hav]
        simp
      rw [List.filter_cons, if_neg hcond, ← hrest]

lemma scalarLock_sid (ids : List String) (rid : String) (s : Seat) :
    (ids.foldl (fun x sid => lockSeatF sid rid x) s).sid = s.sid := by
  rcases scalarLock_cases ids rid s with h | ⟨_, _, h⟩ <;> rw [h]

lemma rollback_eq_map (seats : List Seat) (rid : String) (seatIds : List String) :
    rollbackLocked (lockLoop seats rid seatIds).1 (lockLoop seats rid seatIds).2.1 =
      seats.map (fun s => rollbackF (lockLoop seats rid seatIds).2.1
        (seatIds.foldl (fun x sid => lockSeatF sid rid x) s)) := by
  rw [rollbackLocked, lockLoop_fst, List.map_map]
  rfl

/-- **C3.** If `atomicLockSeats` fails to acquire any requested seat then, in
the returned store, every seat is either untouched or (having been available)
is back with state available and its hold reference cleared; no seat of the
request remains payment_pending under the calling reservation id; and the
result reports failure, with exactly the requested ids that had no available
seat as the failed ids. Hypotheses: seat `_id`s are unique (Mongo), the
request list has no duplicates, and the reservation id is fresh (a
just-generated uuid, held by no seat). -/
theorem c3_failed_lock_rolls_back (seats : List Seat) (seatIds : List String)
    (rid : String)
    (hnds : (seats.map Seat.sid).Nodup)
    (hndi : seatIds.Nodup)
    (hfresh : ∀ s ∈ seats, s.pendingReservationId ≠ some rid)
    (hfail : (atomicLockSeats seats seatIds rid).1.success = false) :
    (∀ s ∈ seats, s ∈ (atomicLockSeats seats seatIds rid).2 ∨
       (s.state = SeatState.available ∧
        { s with pendingReservationId := none } ∈ (atomicLockSeats seats seatIds rid).2)) ∧
    (∀ s' ∈ (atomicLockSeats seats seatIds rid).2, s'.sid ∈ seatIds →
       ¬(s'.state = SeatState.payment_pending ∧ s'.pendingReservationId = some rid)) ∧
    (atomicLockSeats seats seatIds rid).1.failedSeatIds =
      seatIds.filter (fun id =>
        !(seats.any (fun s => s.sid = id ∧ s.state = SeatState.available))) ∧
    (atomicLockSeats seats seatIds rid).1.failedSeatIds ≠ [] := by
  have hne : (lockLoop seats rid seatIds).2.2 ≠ [] := by
    intro h
    unfold atomicLockSeats at hfail
    dsimp only at hfail
    rw [if_neg (not_not_intro h)] at hfail
    exact Bool.noConfusion hfail
  have hres : atomicLockSeats seats seatIds rid =
      (⟨false, (lockLoop seats rid seatIds).2.2⟩,
       rollbackLocked (lockLoop seats rid seatIds).1 (lockLoop seats rid seatIds).2.1) := by
    unfold atomicLockSeats
    dsimp only
    rw [if_pos hne]
  rw [hres]
  dsimp only
  refine ⟨?_, ?_, ?_, hne⟩
  · intro s hs
    rcases scalarLock_cases seatIds rid s with hsc | ⟨hav, hmem, hsc⟩
    · by_cases hL : s.sid ∈ (lockLoop seats rid seatIds).2.1
      · obtain ⟨s0, hs0, hsid0, hav0⟩ := locked_sound hL
        have hseq : s0 = s := List.inj_on_of_nodup_map hnds hs0 hs hsid0
        have hav : s.state = SeatState.available := hseq ▸ hav0
        right
        refine ⟨hav, ?_⟩
        rw [rollback_eq_map]
        refine List.mem_map.mpr ⟨s, hs, ?_⟩
        show rollbackF (lockLoop seats rid seatIds).2.1
            (seatIds.foldl (fun x sid => lockSeatF sid rid x) s) = _
        rw [hsc]
        unfold rollbackF
        rw [if_pos hL, ← hav]
      · left
        rw [rollback_eq_map]
        refine List.mem_map.mpr ⟨s, hs, ?_⟩
        show rollbackF (lockLoop seats rid seatIds).2.1
            (seatIds.foldl (fun x sid => lockSeatF sid rid x) s) = _
        rw [hsc]
        unfold rollbackF
        rw [if_neg hL]
    · have hL : s.sid ∈ (lockLoop seats rid seatIds).2.1 :=
        locked_of_available hs hav hmem
      right
      refine ⟨hav, ?_⟩
      rw [rollback_eq_map]
      refine List.mem_map.mpr ⟨s, hs, ?_⟩
      show rollbackF (lockLoop seats rid seatIds).2.1
          (seatIds.foldl (fun x sid => lockSeatF sid rid x) s) = _
      rw [hsc]
      unfold rollbackF
      dsimp only
      rw [if_pos hL, hav]
  · intro s' hs' hsid hcon
    rw [rollback_eq_map] at hs'
    obtain ⟨s, hs, hval0⟩ := List.mem_map.mp hs'
    have hval : rollbackF (lockLoop seats rid seatIds).2.1
        (seatIds.foldl (fun x sid => lockSeatF sid rid x) s) = s' := hval0
    rcases hcon with ⟨hpend, hrid⟩
    rw [← hval] at hpend hrid
    unfold rollbackF at hpend hrid
    by_cases hc : (seatIds.foldl (fun x sid => lockSeatF sid rid x) s).sid ∈
        (lockLoop seats rid seatIds).2.1
    · rw [if_pos hc] at hpend
      exact absurd hpend (by simp)
    · rw [if_neg hc] at hpend hrid
      rcases scalarLock_cases seatIds rid s with hsc | ⟨hav, hmem, hsc⟩
      · rw [hsc] at hrid
        exact hfresh s hs hrid
      · rw [scalarLock_sid] at hc
        exact hc (locked_of_available hs hav hmem)
  · exact failed_characterisation seatIds hndi

/-- Closed witness for C3: two requested seats, one available and one already
booked, under a fresh reservation id; the lock fails and the theorem's
failure-report conjunct applies. -/
theorem c3_witness :
    (atomicLockSeats
      [⟨"s1", "e1", SeatState.available, none, none, none⟩,
       ⟨"s2", "e1", SeatState.booked, none, none, none⟩]
      ["s1", "s2"] "r1").1.failedSeatIds ≠ [] :=
  (c3_failed_lock_rolls_back
    [⟨"s1", "e1", SeatState.available, none, none, none⟩,
     ⟨"s2", "e1", SeatState.booked, none, none, none⟩]
    ["s1", "s2"] "r1"
    (by decide) (by decide) (by decide) (by decide)).2.2.2

/-! ## C4 — idempotent confirmation -/

lemma findRes_saveRes {rs : List Reservation} {rid : String} {r r' : Reservation}
    (hfind : findRes rs rid = some r) (hr : r'.rid = r.rid) :
    findRes (saveRes rs r') rid = some r' := by
  have hrrid : r.rid = rid := (findRes_mem hfind).2
  induction rs with
  | nil => simp [findRes] at hfind
  | cons x t ih =>
    unfold findRes at hfind ⊢
    unfold saveRes
    rw [List.map_cons]
    by_cases hx : x.rid = rid
    · rw [List.find?_cons_of_pos _ (by simp [hx])] at hfind
      have hxr : x = r := by injection hfind
      rw [if_pos (by rw [hr, ← hxr])]
      rw [List.find?_cons_of_pos _ (by simp [hr, hrrid])]
    · rw [List.find?_cons_of_neg _ (by simp [hx])] at hfind
      rw [if_neg (fun he => hx (by rw [he, hr, hrrid]))]
      rw [List.find?_cons_of_neg _ (by simp [hx])]
      exact ih hfind

lemma createBookings_shape {seats : List Seat} {r : Reservation}
    (bid : Nat) (sids : List String) (bs : List Booking)
    (h : createBookings seats r bid sids = Except.ok bs) :
    bs.map Booking.seatId = sids ∧ ∀ b ∈ bs, b.reservationId = r.rid := by
  induction sids generalizing bid bs with
  | nil =>
    rw [createBookings] at h
    injection h with h
    subst h
    exact ⟨rfl, fun b hb => absurd hb (by simp)⟩
  | cons sid rest ih =>
    rw [createBookings] at h
    cases hfind : findSeat seats sid with
    | none =>
      rw [hfind] at h
      simp at h
    | some s =>
      rw [hfind] at h
      cases hrec : createBookings seats r (bid + 1) rest with
      | error e =>
        rw [hrec] at h
        simp at h
      | ok bs' =>
        rw [hrec] at h
        dsimp only at h
        injection h with h
        subst h
        obtain ⟨h1, h2⟩ := ih (bid + 1) bs' hrec
        refine ⟨?_, ?_⟩
        · rw [List.map_cons, h1]
          rfl
        · intro b hb
          rcases List.mem_cons.mp hb with hb | hb
          · rw [hb]
            rfl
          · exact h2 b hb

lemma nodup_of_countP_eq_length {seats : List Seat} {seatIds : List String}
    (pr : Seat → Bool)
    (hnds : (seats.map Seat.sid).Nodup)
    (hmem : ∀ s, pr s = true → s.sid ∈ seatIds)
    (hc : seats.countP pr = seatIds.length) :
    seatIds.Nodup := by
  have hlen : (seats.filter pr).length = seatIds.length := by
    rw [← List.countP_eq_length_filter]
    exact hc
  have hndf : ((seats.filter pr).map Seat.sid).Nodup :=
    List.Nodup.sublist (List.Sublist.map Seat.sid (List.filter_sublist seats)) hnds
  have hsubset : ∀ x ∈ (seats.filter pr).map Seat.sid, x ∈ seatIds := by
    intro x hx
    obtain ⟨s, hs, hsx⟩ := List.mem_map.mp hx
    rw [← hsx]
    exact hmem s (List.of_mem_filter hs)
  have hcard1 : ((seats.filter pr).map Seat.sid).toFinset.card =
      ((seats.filter pr).map Seat.sid).length :=
    List.toFinset_card_of_nodup hndf
  have hsub2 : ((seats.filter pr).map Seat.sid).toFinset ⊆ seatIds.toFinset := by
    intro x hx
    rw [List.mem_toFinset] at hx ⊢
    exact hsubset x hx
  have hcard2 := Finset.card_le_card hsub2
  have hge : seatIds.length ≤ seatIds.dedup.length := by
    have h1 : seatIds.length = ((seats.filter pr).map Seat.sid).length := by
      rw [List.length_map]
      exact hlen.symm
    rw [h1, ← hcard1, ← List.card_toFinset]
    exact hcard2
  have hle : seatIds.dedup.length ≤ seatIds.length :=
    List.Sublist.length_le (List.dedup_sublist seatIds)
  have heq : seatIds.dedup = seatIds :=
    List.Sublist.eq_of_length (List.dedup_sublist seatIds) (le_antisymm hle hge)
  rw [← heq]
  exact List.nodup_dedup seatIds

lemma confirm_count_nodup {seats : List Seat} {seatIds : List String} {rid : String}
    (hnds : (seats.map Seat.sid).Nodup)
    (hc : (atomicConfirmSeats seats seatIds rid).1 = seatIds.length) :
    seatIds.Nodup := by
  have hc' : seats.countP (fun s =>
      s.sid ∈ seatIds ∧ s.state = SeatState.payment_pending ∧
        s.pendingReservationId = some rid) = seatIds.length := hc
  exact nodup_of_countP_eq_length _ hnds
    (fun s h => (of_decide_eq_true h).1) hc'

lemma countP_eq_one_of_nodup_mem {l : List String} {a : String}
    (hnd : l.Nodup) (ha : a ∈ l) :
    l.countP (fun x => x = a) = 1 := by
  induction l with
  | nil => cases ha
  | cons x t ih =>
    rw [List.countP_cons]
    rcases List.mem_cons.mp ha with h | h
    · subst h
      have hx : a ∉ t := (List.nodup_cons.mp hnd).1
      have ht0 : t.countP (fun y => y = a) = 0 := by
        rw [List.countP_eq_zero]
        intro y hy
        simp only [decide_eq_true_eq]
        intro he
        exact hx (he ▸ hy)
      simp [ht0]
    · have ht := ih (List.nodup_cons.mp hnd).2 h
      have hxa : ¬(x = a) := fun he => (List.nodup_cons.mp hnd).1 (he ▸ h)
      simp [ht, hxa]

lemma confirmBooking_ok_inv {st : SysState} {rid : String} {pid : Option String}
    {now : Int} {res : ConfirmResult} {st' : SysState} {r : Reservation}
    (hfind : findRes st.reservations rid = some r)
    (hb0 : st.bookings.filter (fun b => b.reservationId = rid) = [])
    (hok : confirmBooking st rid pid now = (Except.ok res, st')) :
    ∃ bs, createBookings (atomicConfirmSeats st.seats r.seatIds rid).2 r
            st.nextBookingId r.seatIds = Except.ok bs ∧
      (atomicConfirmSeats st.seats r.seatIds rid).1 = r.seatIds.length ∧
      res = ⟨rid, bs.map (fun b => b.bid), r.seatIds⟩ ∧
      st' = { st with
              seats := (atomicConfirmSeats st.seats r.seatIds rid).2,
              reservations := saveRes st.reservations
                { r with status := ReservationStatus.completed,
                         paymentIntentId := if optTruthy pid then pid else r.paymentIntentId },
              bookings := st.bookings ++ bs,
              nextBookingId := st.nextBookingId + bs.length } := by
  unfold confirmBooking at hok
  rw [hfind] at hok
  dsimp only at hok
  rw [hb0] at hok
  rw [if_neg (by simp)] at hok
  unfold confirmMain at hok
  split at hok
  · exact absurd (congrArg Prod.fst hok) (by simp)
  · split at hok
    · exact absurd (congrArg Prod.fst hok) (by simp)
    · dsimp only at hok
      split at hok
      next hcnt => exact absurd (congrArg Prod.fst hok) (by simp)
      next hcnt =>
        have hcount : (atomicConfirmSeats st.seats r.seatIds rid).1 = r.seatIds.length :=
          not_not.mp hcnt
        unfold confirmPersist at hok
        dsimp only at hok
        rw [if_neg (by simp)] at hok
        cases hcb : createBookings (atomicConfirmSeats st.seats r.seatIds rid).2 r
            st.nextBookingId r.seatIds with
        | error e =>
          rw [hcb] at hok
          exact absurd (congrArg Prod.fst hok) (by simp)
        | ok bs =>
          rw [hcb] at hok
          dsimp only at hok
          rw [if_neg (by simp)] at hok
          split at hok
          · exact absurd (congrArg Prod.fst hok) (by simp)
          · refine ⟨bs, rfl, hcount, ?_, ?_⟩
            · have h1 := congrArg Prod.fst hok
              dsimp only at h1
              injection h1 with h1
              exact h1.symm
            · have h2 := congrArg Prod.snd hok
              dsimp only at h2
              exact h2.symm

/-- **C4.** `confirmBooking` is idempotent in booking creation: if a first
call on a reservation with no prior bookings succeeds, a second call with a
success verdict returns the same booking result, writes no further Booking
document, and the store holds exactly one booking per seat of the
reservation. Hypotheses: seat `_id`s are unique (Mongo), the reservation is
found, has at least one seat, and had no bookings before the first call. -/
theorem c4_confirm_idempotent (st : SysState) (rid : String) (pid pid2 : Option String)
    (now now2 : Int) (r : Reservation) (res1 : ConfirmResult) (st1 : SysState)
    (hnds : (st.seats.map Seat.sid).Nodup)
    (hfind : findRes st.reservations rid = some r)
    (hne : r.seatIds ≠ [])
    (hb0 : st.bookings.filter (fun b => b.reservationId = rid) = [])
    (hok : confirmBooking st rid pid now = (Except.ok res1, st1)) :
    (confirmBooking st1 rid pid2 now2).1 = Except.ok res1 ∧
    (confirmBooking st1 rid pid2 now2).2.bookings = st1.bookings ∧
    ∀ sid ∈ r.seatIds,
      (st1.bookings.filter (fun b => b.reservationId = rid ∧ b.seatId = sid)).length = 1 := by
  obtain ⟨bs, hcb, hcount, hres, hst⟩ := confirmBooking_ok_inv hfind hb0 hok
  have hrrid : r.rid = rid := (findRes_mem hfind).2
  obtain ⟨hmap, hall⟩ := createBookings_shape _ _ _ hcb
  have hnodup : r.seatIds.Nodup := confirm_count_nodup hnds hcount
  have hbsne : bs ≠ [] := by
    intro h
    rw [h] at hmap
    exact hne hmap.symm
  have hfind1 : findRes st1.reservations rid =
      some { r with status := ReservationStatus.completed,
                    paymentIntentId := if optTruthy pid then pid else r.paymentIntentId } := by
    rw [hst]
    exact findRes_saveRes hfind rfl
  have hfilter : st1.bookings.filter (fun b => b.reservationId = rid) = bs := by
    rw [hst]
    dsimp only
    rw [List.filter_append, hb0, List.nil_append]
    exact List.filter_eq_self.mpr (fun b hb => by simp [hall b hb, hrrid])
  refine ⟨?_, ?_, ?_⟩
  · rw [hres]
    unfold confirmBooking
    rw [hfind1]
    dsimp only
    rw [hfilter]
    rw [if_pos ⟨rfl, hbsne⟩]
    rfl
  · unfold confirmBooking
    rw [hfind1]
    dsimp only
    rw [hfilter]
    rw [if_pos ⟨rfl, hbsne⟩]
    rfl
  · intro sid hsid
    rw [hst]
    dsimp only
    rw [List.filter_append]
    have h0 : st.bookings.filter (fun b => b.reservationId = rid ∧ b.seatId = sid) = [] := by
      rw [List.filter_eq_nil_iff] at hb0 ⊢
      intro b hb
      have := hb0 b hb
      simp only [decide_eq_true_eq] at this ⊢
      exact fun hc => this hc.1
    rw [h0, List.nil_append]
    have hcong : bs.filter (fun b => b.reservationId = rid ∧ b.seatId = sid) =
        bs.filter (fun b => b.seatId = sid) := by
      apply List.filter_congr
      intro b hb
      simp [hall b hb, hrrid]
    rw [hcong, ← List.countP_eq_length_filter]
    have hcmap : bs.countP (fun b => b.seatId = sid) =
        (bs.map Booking.seatId).countP (fun x => x = sid) := by
      rw [List.countP_map]
      rfl
    rw [hcmap, hmap]
    exact countP_eq_one_of_nodup_mem hnodup hsid

/-- Closed witness for C4: a one-seat reservation is confirmed once and the
theorem's first conjunct applies to the re-invocation. -/
theorem c4_witness :
    (confirmBooking
      ((confirmBooking
        ⟨[⟨"r1", "e1", ["s1"], ReservationStatus.pending_payment, -2, 100, none, none,
           some "0770000000"⟩],
          [⟨"s1", "e1", SeatState.payment_pending, some "r1", none, none⟩],
          [], [], [⟨"e1", 5, [], none, true, none, none⟩], 0, ⟨true, true⟩⟩
        "r1" (some "pay1") 50).2)
      "r1" (some "pay2") 60).1 =
    Except.ok ⟨"r1", [0], ["s1"]⟩ :=
  (c4_confirm_idempotent
    ⟨[⟨"r1", "e1", ["s1"], ReservationStatus.pending_payment, -2, 100, none, none,
       some "0770000000"⟩],
      [⟨"s1", "e1", SeatState.payment_pending, some "r1", none, none⟩],
      [], [], [⟨"e1", 5, [], none, true, none, none⟩], 0, ⟨true, true⟩⟩
    "r1" (some "pay1") (some "pay2") 50 60
    ⟨"r1", "e1", ["s1"], ReservationStatus.pending_payment, -2, 100, none, none,
     some "0770000000"⟩
    ⟨"r1", [0], ["s1"]⟩
    ((confirmBooking
      ⟨[⟨"r1", "e1", ["s1"], ReservationStatus.pending_payment, -2, 100, none, none,
         some "0770000000"⟩],
        [⟨"s1", "e1", SeatState.payment_pending, some "r1", none, none⟩],
        [], [], [⟨"e1", 5, [], none, true, none, none⟩], 0, ⟨true, true⟩⟩
      "r1" (some "pay1") 50).2)
    (by decide) rfl (by decide) rfl rfl).1

end BookYourShow
